import Mathlib

set_option maxRecDepth 4000
set_option maxHeartbeats 1000000

/-!
Shallow embedding of `pmcfg.py`, the reference reader/writer for the PMCFG
grammar-exchange format.  Python strings are modelled as `String` / `List Char`
(ASCII fragment: the character-class tests `isspace`, `isalnum`, `isdigit`
are modelled by their ASCII behaviour, which agrees with CPython on every
ASCII input).  Python dicts are modelled as insertion-ordered association
lists; `None` placeholders stored in dicts become `Option` values.  Errors are
values of `PyErr` (kind plus message); the error kinds mirror the Python
exception classes that the code can raise (`SyntaxError`, `ValueError`,
`TypeError` from the two `%`-less format strings, `KeyError` / `IndexError`
from the deferred validation sweep).  `warnings.warn` calls are modelled by
returning the list of warning message strings.  CPython's `eval` of a
quoted sequence literal (source line 70) is modelled as a fallible escape
resolver (`pyEvalLit`), replicating the SyntaxError messages `eval` raises
on broken escapes and raw line breaks; the Unicode character name database
behind `\N{...}` is outside the model (see `pyEscN`).  Reading lines from files and
the `fileinput` position collaborator are outside the repository per the
spec; the embedding models the in-memory line-source case, where no filename
is available and errors are decorated with the offending raw line (source
lines 213-214).
-/

/-- ASCII model of Python whitespace (`str.isspace`, `str.split()` separators
and the regex class `\s`): space, tab, newline, carriage return, vertical
tab, form feed. -/
def pyIsSpace (c : Char) : Bool :=
  c = ' ' || c = '\t' || c = '\n' || c = '\r' || c = Char.ofNat 11 || c = Char.ofNat 12

/-- The backslash character. -/
def BSL : Char := Char.ofNat 92

/-- The single-quote character. -/
def SQ : Char := Char.ofNat 39

/-- Source: `PRAGMA = ":"` (compared against the first character of a line). -/
def PRAGMA : Char := ':'

/-- Source: `RULE = ":"` (compared against the keyword field). -/
def RULE : List Char := [':']

/-- Source: `RULEARROW = "<-"`. -/
def RULEARROW : List Char := ['<', '-']

/-- Source: `LINEARIZATION = "="`. -/
def LINEARIZATION : List Char := ['=']

/-- Source: `SEQUENCE = "->"`. -/
def SEQUENCE : List Char := ['-', '>']

/-- Source: `COMMENT` holds the five comment-marker characters
hash, percent, slash, dash, semicolon. -/
def COMMENT : List Char := ['#', '%', '/', '-', ';']

/-- Source `is_identifier`: nonempty, first character alphanumeric or `_`,
no whitespace afterwards. -/
def is_identifier (s : List Char) : Bool :=
  match s with
  | [] => false
  | c :: rest => (c.isAlphanum || c = '_') && rest.all (fun d => !pyIsSpace d)

/-- Fueled worker for Python `s.split(None)` (split on whitespace runs, no
empty chunks).  Every recursive call shortens the list by at least one
character while using one unit of fuel, so fuel `= length` is sufficient and
the `0` case is only reached on the empty list. -/
def wsplitAllF : Nat → List Char → List (List Char)
  | 0, _ => []
  | fuel + 1, l =>
    match l with
    | [] => []
    | c :: cs =>
      if pyIsSpace c then wsplitAllF fuel cs
      else (c :: cs.takeWhile (fun d => !pyIsSpace d)) ::
           wsplitAllF fuel (cs.dropWhile (fun d => !pyIsSpace d))

/-- Python `s.split(None)`. -/
def wsplitAll (l : List Char) : List (List Char) := wsplitAllF l.length l

/-- Python `s.split(None, maxsplit)`: after `maxsplit` splits the remainder
of the string (leading whitespace skipped, trailing whitespace kept) becomes
the final chunk; an all-whitespace remainder yields no chunk. -/
def wsplitN : Nat → List Char → List (List Char)
  | k, l =>
    match l.dropWhile pyIsSpace with
    | [] => []
    | c :: cs =>
      match k with
      | 0 => [c :: cs]
      | k' + 1 =>
        ((c :: cs).takeWhile (fun d => !pyIsSpace d)) ::
        wsplitN k' ((c :: cs).dropWhile (fun d => !pyIsSpace d))

/-- Source `whitespace_split(s, 1)`: two chunks, padded with empty strings. -/
def wsplit2 (l : List Char) : List Char × List Char :=
  match wsplitN 1 l with
  | [] => ([], [])
  | [a] => (a, [])
  | a :: b :: _ => (a, b)

/-- Source `whitespace_split(s, 2)`: three chunks, padded with empty strings. -/
def wsplit3 (l : List Char) : List Char × List Char × List Char :=
  match wsplitN 2 l with
  | [] => ([], [], [])
  | [a] => (a, [], [])
  | [a, b] => (a, b, [])
  | a :: b :: c :: _ => (a, b, c)

/-- Python `s.strip()`. -/
def pyStrip (l : List Char) : List Char :=
  ((l.dropWhile pyIsSpace).reverse.dropWhile pyIsSpace).reverse

/-- Decimal value of a digit string. -/
def natOfDigits (ds : List Char) : Nat :=
  ds.foldl (fun n c => n * 10 + (c.toNat - 48)) 0

/-- One hexadecimal digit (lower case), used by the `repr` model. -/
def hexDigit (n : Nat) : Char :=
  if n < 10 then Char.ofNat (48 + n) else Char.ofNat (87 + n)

/-- One character of Python `repr` of a string, given the chosen quote
character: backslash and the quote are escaped, the common control
characters print as `\n`, `\r`, `\t`, other non-printable ASCII as `\xhh`
(ASCII model; codepoints above 126 also rendered as a hex escape). -/
def pyReprChar (q : Char) (c : Char) : String :=
  if c = BSL then String.mk [BSL, BSL]
  else if c = q then String.mk [BSL, q]
  else if c = '\n' then String.mk [BSL, 'n']
  else if c = '\r' then String.mk [BSL, 'r']
  else if c = '\t' then String.mk [BSL, 't']
  else if c.toNat < 32 || c.toNat ≥ 127 then
    String.mk [BSL, 'x', hexDigit (c.toNat / 16 % 16), hexDigit (c.toNat % 16)]
  else String.mk [c]

/-- Python `repr` of a string (the `%r` format): single quotes, switching to
double quotes when the string contains a single quote but no double quote. -/
def pyRepr (s : String) : String :=
  let q := if s.data.contains SQ && !(s.data.contains '"') then '"' else SQ
  String.mk [q] ++ String.join (s.data.map (pyReprChar q)) ++ String.mk [q]

/-- A token of a linearization sequence: a terminal literal or an
argument reference `arg:ref` (source: the two regex alternatives). -/
inductive Tok where
  | str : String → Tok
  | argref : Nat → Nat → Tok
deriving DecidableEq, Repr

/-- A Python numeric score: an integer, or a float represented by the
accepted literal text (IEEE float values are out of the embedding's scope;
no claim depends on the numeric value of a float score). -/
inductive PyNum where
  | intVal : Int → PyNum
  | floatVal : String → PyNum
deriving DecidableEq, Repr

/-- The kinds of exception the source can raise. -/
inductive ErrKind where
  | synErr
  | valErr
  | typErr
  | keyErr
  | idxErr
deriving DecidableEq, Repr

/-- A raised Python exception: kind and message. -/
structure PyErr where
  kind : ErrKind
  msg : String
deriving DecidableEq, Repr

/-- Scanner for the body of a quoted string in `SEQ_REGEXP`
(`[^q\\]* (?: \\. [^q\\]* )* q` where `q` is the opening quote): returns the
raw content (escapes unresolved) and the characters after the closing quote.
A backslash must be followed by a character other than newline (the regex
`\\.` with `.` not matching newline); the content may contain any other
character except the quote and a bare backslash. -/
def scanQuote (q : Char) : List Char → Option (List Char × List Char)
  | [] => none
  | c :: rest =>
    if c = q then some ([], rest)
    else if c = BSL then
      match rest with
      | [] => none
      | d :: rest' =>
        if d = '\n' then none
        else match scanQuote q rest' with
             | none => none
             | some (content, r) => some (c :: d :: content, r)
    else match scanQuote q rest with
         | none => none
         | some (content, r) => some (c :: content, r)

/-- The `(?: \s+ | $)` part of `SEQ_REGEXP`: after a token there must be
whitespace (consumed greedily) or the end of the input. -/
def afterTok (l : List Char) : Option (List Char) :=
  match l with
  | [] => some []
  | c :: cs => if pyIsSpace c then some ((c :: cs).dropWhile pyIsSpace) else none

/-- Hexadecimal digit test for the escape-sequence model. -/
def isHexDig (c : Char) : Bool :=
  c.isDigit || ('a' ≤ c && c ≤ 'f') || ('A' ≤ c && c ≤ 'F')

def hexVal (c : Char) : Nat :=
  if c.isDigit then c.toNat - 48
  else if 'a' ≤ c && c ≤ 'f' then c.toNat - 87
  else c.toNat - 55

def isOctDig (c : Char) : Bool := '0' ≤ c && c ≤ '7'

def octVal (ds : List Char) : Nat :=
  ds.foldl (fun n c => n * 8 + (c.toNat - 48)) 0

/-- Value of a list of hexadecimal digits. -/
def hexValN (ds : List Char) : Nat :=
  ds.foldl (fun n c => n * 16 + hexVal c) 0

/-- The message CPython raises for a string literal broken by a raw line
break (or a backslash at the very end of the literal's content). -/
def unterminatedMsg : String := "unterminated string literal (detected at line 1)"

/-- The message of the SyntaxError CPython raises for a broken escape
sequence: the positions are the content-relative indices (0 = the first
character after the opening quote) of the backslash and of the last
character of the offending escape. -/
def uniErrMsg (a b : Nat) (reason : String) : String :=
  ("(unicode error) 'unicodeescape' codec can't decode bytes in position ")
    ++ toString a ++ "-" ++ toString b ++ ": " ++ reason

/-- The `\\xhh` escape of a CPython string literal, with `p` the
content-relative index of the backslash: exactly two hexadecimal digits
must follow, else `eval` raises its truncated-escape SyntaxError (ranging
over the backslash, the `x` and the hexadecimal digits present). -/
def pyEscHexX (p : Nat) (rest : List Char) : Except PyErr (List Char × List Char) :=
  match rest with
  | h1 :: h2 :: r2 =>
    if isHexDig h1 && isHexDig h2 then
      .ok ([Char.ofNat (hexValN [h1, h2])], r2)
    else .error ⟨ErrKind.synErr,
      uniErrMsg p (p + 1 + (rest.takeWhile isHexDig).length) ("truncated \\xXX escape")⟩
  | _ => .error ⟨ErrKind.synErr,
      uniErrMsg p (p + 1 + (rest.takeWhile isHexDig).length) ("truncated \\xXX escape")⟩

/-- The `\\uXXXX` escape: exactly four hexadecimal digits must follow.
A lone surrogate goes through `Char.ofNat`, which sends invalid scalar
values to NUL (CPython permits lone surrogates in literals). -/
def pyEscU4 (p : Nat) (rest : List Char) : Except PyErr (List Char × List Char) :=
  match rest with
  | u1 :: u2 :: u3 :: u4 :: r2 =>
    if isHexDig u1 && isHexDig u2 && isHexDig u3 && isHexDig u4 then
      .ok ([Char.ofNat (hexValN [u1, u2, u3, u4])], r2)
    else .error ⟨ErrKind.synErr,
      uniErrMsg p (p + 1 + (rest.takeWhile isHexDig).length) ("truncated \\uXXXX escape")⟩
  | _ => .error ⟨ErrKind.synErr,
      uniErrMsg p (p + 1 + (rest.takeWhile isHexDig).length) ("truncated \\uXXXX escape")⟩

/-- The `\\UXXXXXXXX` escape: exactly eight hexadecimal digits must
follow, and the value must not exceed U+10FFFF. -/
def pyEscU8 (p : Nat) (rest : List Char) : Except PyErr (List Char × List Char) :=
  match rest with
  | u1 :: u2 :: u3 :: u4 :: u5 :: u6 :: u7 :: u8 :: r2 =>
    if isHexDig u1 && isHexDig u2 && isHexDig u3 && isHexDig u4
        && isHexDig u5 && isHexDig u6 && isHexDig u7 && isHexDig u8 then
      if hexValN [u1, u2, u3, u4, u5, u6, u7, u8] ≤ 1114111 then
        .ok ([Char.ofNat (hexValN [u1, u2, u3, u4, u5, u6, u7, u8])], r2)
      else .error ⟨ErrKind.synErr,
        uniErrMsg p (p + 9) ("illegal Unicode character")⟩
    else .error ⟨ErrKind.synErr,
      uniErrMsg p (p + 1 + (rest.takeWhile isHexDig).length) ("truncated \\UXXXXXXXX escape")⟩
  | _ => .error ⟨ErrKind.synErr,
      uniErrMsg p (p + 1 + (rest.takeWhile isHexDig).length) ("truncated \\UXXXXXXXX escape")⟩

/-- The `\\N\x7bname\x7d` escape: `eval` raises a malformed-escape
SyntaxError unless a braced name follows (the error ranges to the end of
the content when the brace is never closed).  Model boundary: the Unicode
character name database is outside the model, so a braced name maps to the
unknown-name SyntaxError that CPython raises for names absent from the
database (CPython resolves database names to their character; the exchange
format's grammars do not use `\\N`). -/
def pyEscN (p : Nat) (rest : List Char) : Except PyErr (List Char × List Char) :=
  match rest with
  | b :: r2 =>
    if b = Char.ofNat 123 then
      if r2.contains (Char.ofNat 125) then
        .error ⟨ErrKind.synErr,
          uniErrMsg p (p + 3 + r2.indexOf (Char.ofNat 125)) ("unknown Unicode character name")⟩
      else .error ⟨ErrKind.synErr,
        uniErrMsg p (p + 2 + r2.length) ("malformed \\N character escape")⟩
    else .error ⟨ErrKind.synErr, uniErrMsg p (p + 1) ("malformed \\N character escape")⟩
  | [] => .error ⟨ErrKind.synErr, uniErrMsg p (p + 1) ("malformed \\N character escape")⟩

/-- One escape sequence of a CPython string literal, given the
content-relative index `p` of the backslash, the character after the
backslash and the remaining content: returns the resolved characters and
the rest, or the SyntaxError CPython's `eval` raises (messages replicate
CPython's `err.args[0]`, the string line 218 of the source concatenates).
The single-character escapes and `\\ooo` (one to three octal digits)
resolve, the hexadecimal and Unicode escapes go through the helpers above,
backslash-newline is a line continuation (unreachable from `SEQ_REGEXP`,
whose `\\.` never matches a newline), and any other escape is kept
verbatim (CPython keeps it and emits a SyntaxWarning). -/
def pyEscape (p : Nat) (d : Char) (rest : List Char) : Except PyErr (List Char × List Char) :=
  if d = '\n' then .ok ([], rest)
  else if d = 'n' then .ok (['\n'], rest)
  else if d = 't' then .ok (['\t'], rest)
  else if d = 'r' then .ok (['\r'], rest)
  else if d = BSL then .ok ([BSL], rest)
  else if d = SQ then .ok ([SQ], rest)
  else if d = '"' then .ok (['"'], rest)
  else if d = 'a' then .ok ([Char.ofNat 7], rest)
  else if d = 'b' then .ok ([Char.ofNat 8], rest)
  else if d = 'f' then .ok ([Char.ofNat 12], rest)
  else if d = 'v' then .ok ([Char.ofNat 11], rest)
  else if isOctDig d then
    .ok ([Char.ofNat (octVal (d :: (rest.takeWhile isOctDig).take 2))],
         rest.drop ((rest.takeWhile isOctDig).take 2).length)
  else if d = 'x' then pyEscHexX p rest
  else if d = 'u' then pyEscU4 p rest
  else if d = 'U' then pyEscU8 p rest
  else if d = 'N' then pyEscN p rest
  else .ok ([BSL, d], rest)

/-- Fueled worker modelling CPython 3 `eval` of the quoted literal matched
by `SEQ_REGEXP` (source line 70), applied to the raw content between the
quotes, with `p` the content-relative index of the current character: a
raw newline or carriage return inside the (single-line) literal raises the
unterminated-literal SyntaxError, a backslash resolves through `pyEscape`
(which can raise), every other character stands for itself.  Each step
consumes at least one character while using one unit of fuel (an escape
consumes at least two), so fuel `= length` is sufficient and the `0` case
is only reached on the empty remainder. -/
def pyEvalLitF : Nat → Nat → List Char → Except PyErr (List Char)
  | 0, _, _ => .ok []
  | _ + 1, _, [] => .ok []
  | fuel + 1, p, c :: rest =>
    if c = '\n' || c = '\r' then .error ⟨ErrKind.synErr, unterminatedMsg⟩
    else if c = BSL then
      match rest with
      | [] => .error ⟨ErrKind.synErr, unterminatedMsg⟩
      | d :: rest2 =>
        match pyEscape p d rest2 with
        | .error e => .error e
        | .ok (out, remaining) =>
          match pyEvalLitF fuel (p + 2 + (rest2.length - remaining.length)) remaining with
          | .error e => .error e
          | .ok s => .ok (out ++ s)
    else
      match pyEvalLitF fuel (p + 1) rest with
      | .error e => .error e
      | .ok s => .ok (c :: s)

/-- CPython 3 `eval` of a quoted literal, on the raw content between the
quotes (the escapes resolve the same way under either quote kind). -/
def pyEvalLit (content : List Char) : Except PyErr (List Char) :=
  pyEvalLitF content.length 0 content

/-- A raw token as matched by `SEQ_REGEXP`, before `eval`: a quoted literal
(quote character and raw content, escapes unresolved) or an `arg:ref` pair. -/
inductive RawTok where
  | quoted : Char → List Char → RawTok
  | argref : Nat → Nat → RawTok
deriving DecidableEq, Repr

/-- One match of `SEQ_REGEXP` at the head of the input: a double- or
single-quoted literal (content kept raw; `eval` happens afterwards on
source line 70) or `digits:digits` (source line 68), each followed by
whitespace or the end. -/
def matchSeqRaw (l : List Char) : Option (RawTok × List Char) :=
  match l with
  | [] => none
  | c :: cs =>
    if c = '"' || c = SQ then
      match scanQuote c cs with
      | none => none
      | some (content, r) =>
        match afterTok r with
        | none => none
        | some r' => some (RawTok.quoted c content, r')
    else if c.isDigit then
      match (c :: cs).dropWhile Char.isDigit with
      | d :: r2 =>
        if d = ':' then
          let ds2 := r2.takeWhile Char.isDigit
          if ds2.isEmpty then none
          else
            match afterTok (r2.dropWhile Char.isDigit) with
            | none => none
            | some r' =>
              some (RawTok.argref (natOfDigits ((c :: cs).takeWhile Char.isDigit))
                                  (natOfDigits ds2), r')
        else none
      | [] => none
    else none

/-- Processing of a matched token, source lines 66-70: an `arg:ref` match
becomes the pair of integers, a quoted literal goes through `eval(tok)`,
which can raise a SyntaxError of its own. -/
def evalRawTok : RawTok → Except PyErr Tok
  | RawTok.argref a r => .ok (Tok.argref a r)
  | RawTok.quoted _ content =>
    match pyEvalLit content with
    | .error e => .error e
    | .ok s => .ok (Tok.str (String.mk s))

/-- Fueled worker for source `read_sequence`: repeatedly match a token; when
no token matches at the current position raise
`SyntaxError("Not a sequence token: %r" % remainder)`; when a quoted token
matches, `eval` it, propagating the SyntaxError `eval` raises on a broken
escape.  Each successful match consumes at least one character, so fuel
`length + 1` is sufficient and the `0` case is unreachable from
`read_sequence`. -/
def readSeqF : Nat → List Char → Except PyErr (List Tok)
  | 0, _ => .error ⟨.synErr, ""⟩
  | _ + 1, [] => .ok []
  | fuel + 1, c :: cs =>
    match matchSeqRaw (c :: cs) with
    | none => .error ⟨.synErr, ("Not a sequence token: ") ++ pyRepr (String.mk (c :: cs))⟩
    | some (raw, r) =>
      match evalRawTok raw with
      | .error e => .error e
      | .ok t =>
        match readSeqF fuel r with
        | .error e => .error e
        | .ok ts => .ok (t :: ts)

/-- Source `read_sequence` on a character list. -/
def readSeqChars (l : List Char) : Except PyErr (List Tok) :=
  readSeqF (l.length + 1) l

/-- Source `read_sequence`: split a linearization-sequence string into
terminal strings and `(arg, ref)` pairs. -/
def read_sequence (s : String) : Except PyErr (List Tok) :=
  readSeqChars s.data

/-- Source `read_rule`: split `LHS <- RHS...` into `(lhs, rhs)`; the arrow
must be the second whitespace chunk, and every chunk (the arrow removed)
must be an identifier, checked in order. -/
def read_rule (rulestr : List Char) : Except PyErr (String × List String) :=
  match wsplitAll rulestr with
  | [] => .error ⟨.synErr, ("Missing '<-' after left-hand side in rule")⟩
  | [_] => .error ⟨.synErr, ("Missing '<-' after left-hand side in rule")⟩
  | lhs :: arrow :: rest =>
    if arrow ≠ RULEARROW then .error ⟨.synErr, ("Missing '<-' after left-hand side in rule")⟩
    else
      match (lhs :: rest).find? (fun nt => !is_identifier nt) with
      | some nt => .error ⟨.synErr, ("Not an identifier: ") ++ pyRepr (String.mk nt)⟩
      | none => .ok (String.mk lhs, rest.map String.mk)

/-- Source `read_linearization`: whitespace-split into sequence identifiers,
each validated. -/
def read_linearization (linstr : List Char) : Except PyErr (List String) :=
  let seqs := wsplitAll linstr
  match seqs.find? (fun s => !is_identifier s) with
  | some s => .error ⟨.synErr, ("Not an identifier: ") ++ pyRepr (String.mk s)⟩
  | none => .ok (seqs.map String.mk)

/-- Lookup in an insertion-ordered association list (Python `d.get(k)` /
`d[k]` presence). -/
def dlookup {α β : Type} [DecidableEq α] : List (α × β) → α → Option β
  | [], _ => none
  | (k, v) :: rest, key => if k = key then some v else dlookup rest key

/-- Python `k in d`. -/
def dcontains {α β : Type} [DecidableEq α] (d : List (α × β)) (k : α) : Bool :=
  (dlookup d k).isSome

/-- Python `d[k] = v`: update in place when the key exists (insertion
position kept), otherwise append at the end. -/
def dset {α β : Type} [DecidableEq α] : List (α × β) → α → β → List (α × β)
  | [], k, v => [(k, v)]
  | (k', v') :: rest, k, v =>
    if k' = k then (k', v) :: rest else (k', v') :: dset rest k v

/-- Python `d.setdefault(k, v)` (result dict). -/
def dsetdefault {α β : Type} [DecidableEq α] (d : List (α × β)) (k : α) (v : β) :
    List (α × β) :=
  if dcontains d k then d else d ++ [(k, v)]

/-- Python `d.setdefault(k, []).append(x)` (result dict). -/
def dappend {α β : Type} [DecidableEq α] (d : List (α × List β)) (k : α) (x : β) :
    List (α × List β) :=
  match dlookup d k with
  | some xs => dset d k (xs ++ [x])
  | none => d ++ [(k, [x])]

/-- Source `collect_max_arities` applied to a token list: for each
`(arg, ref)` token set `arities[arg] = max(arities.get(arg, -1), ref)`
(the `-1` default collapses to `ref` since references are non-negative). -/
def collect_max_arities (arities : List (Nat × Nat)) (argrefs : List Tok) :
    List (Nat × Nat) :=
  argrefs.foldl
    (fun a t =>
      match t with
      | Tok.argref i r =>
        match dlookup a i with
        | some m => dset a i (max m r)
        | none => dset a i r
      | Tok.str _ => a)
    arities

/-- Source `collect_max_arities` applied to `dict.items()` pairs (the call
on line 237): same maximum-merge over `(arg, ref)` pairs. -/
def collect_max_pairs (arities : List (Nat × Nat)) (items : List (Nat × Nat)) :
    List (Nat × Nat) :=
  items.foldl
    (fun a p =>
      match dlookup a p.1 with
      | some m => dset a p.1 (max m p.2)
      | none => dset a p.1 p.2)
    arities

/-- The grammar-under-construction: the six dicts returned by
`read_grammar` plus the two worker dicts `fun_arities` / `seq_arities` and
the last bound `ident` loop variable (referenced by the deferred sweep's
mismatch warning, source line 242). -/
structure RState where
  pragmas : List (Option String × List String)
  functions : List (String × List (String × List String))
  linearizations : List (String × List String)
  sequences : List (String × Option (List Tok))
  scores : List (String × PyNum)
  nonterms : List (String × Option Nat)
  fun_arities : List (String × Nat)
  seq_arities : List (String × List (Nat × Nat))
  last_ident : String
deriving DecidableEq, Repr

/-- The dict returned by `read_grammar` (source lines 252-258): exactly the
six mappings `pragmas`, `functions`, `linearizations`, `sequences`,
`scores`, `nonterms`. -/
structure Grammar where
  pragmas : List (Option String × List String)
  functions : List (String × List (String × List String))
  linearizations : List (String × List String)
  sequences : List (String × Option (List Tok))
  scores : List (String × PyNum)
  nonterms : List (String × Option Nat)
deriving DecidableEq, Repr

def initState : RState := ⟨[], [], [], [], [], [], [], [], ""⟩

def mkGrammar (st : RState) : Grammar :=
  ⟨st.pragmas, st.functions, st.linearizations, st.sequences, st.scores, st.nonterms⟩

/-- The `"Nonterminal %r/%s does not match function %r/%s"` message. -/
def mismatchMsg (lhs : String) (la : String) (f : String) (fa : String) : String :=
  ("Nonterminal ") ++ pyRepr lhs ++ ("/") ++ la ++ (" does not match function ")
    ++ pyRepr f ++ ("/") ++ fa

/-- Python `str` of an optional arity (`None` prints as `None`). -/
def pyStrOptNat (v : Option Nat) : String :=
  match v with
  | none => "None"
  | some n => toString n

/-- CPython's message for calling a string object, raised by the `%`-less
format strings on source lines 173 and 208. -/
def strCallMsg : String := "'str' object is not callable"

/-- The body of the rule branch's RHS loop (source lines 161-164): register
the RHS identifier as a nonterminal with unknown arity, then check the
namespace clash against the linearization, function and sequence dicts. -/
def ruleRhsStep (lins : List (String × List String))
    (fns : List (String × List (String × List String)))
    (seqs : List (String × Option (List Tok)))
    (nts : List (String × Option Nat)) (r : String) :
    Except PyErr (List (String × Option Nat)) :=
  let nts := dsetdefault nts r none
  if dcontains lins r || dcontains fns r || dcontains seqs r then
    throw ⟨ErrKind.valErr,
      ("Nonterminal ") ++ pyRepr r ++ (" already occurs as a function or a sequence identifier")⟩
  else pure nts

/-- The arity bookkeeping of the rule branch (source lines 154-160): when
the function's arity is already known, set the LHS nonterminal's unknown
arity to it or reject a mismatch. -/
def ruleArityStep (nts : List (String × Option Nat)) (faOpt : Option Nat)
    (lhs ident : String) : Except PyErr (List (String × Option Nat)) :=
  match faOpt with
  | some fa =>
    match (dlookup nts lhs).join with
    | none => pure (dset nts lhs (some fa))
    | some la =>
      if la ≠ fa then
        throw ⟨ErrKind.valErr, mismatchMsg lhs (toString la) ident (toString fa)⟩
      else pure nts
  | none => pure nts

/-- The rule branch (source lines 151-168). -/
def ruleBranch (st : RState) (ident : String) (rest : List Char) :
    Except PyErr RState := do
  let (lhs, rhs) ← read_rule rest
  let functions := dappend st.functions ident (lhs, rhs)
  let nonterms ← ruleArityStep st.nonterms (dlookup st.fun_arities ident) lhs ident
  let nonterms ← rhs.foldlM (ruleRhsStep st.linearizations functions st.sequences) nonterms
  if dcontains st.linearizations lhs || dcontains functions lhs
      || dcontains st.sequences lhs then
    throw ⟨ErrKind.valErr,
      ("Nonterminal ") ++ pyRepr lhs ++ (" already occurs as a function or a sequence identifier")⟩
  else if dcontains nonterms ident || dcontains st.sequences ident then
    throw ⟨ErrKind.valErr,
      ("Function ") ++ pyRepr ident ++ (" already occurs as a nonterminal or a sequence identifier")⟩
  else pure { st with functions := functions, nonterms := nonterms }

/-- The body of the linearization branch's propagation loop (source lines
176-181): set or cross-check the LHS arity of every rule already recorded
for the function. -/
def linPropStep (fa : Nat) (ident : String) (nts : List (String × Option Nat))
    (rule : String × List String) : Except PyErr (List (String × Option Nat)) :=
  match (dlookup nts rule.1).join with
  | none => pure (dset nts rule.1 (some fa))
  | some la =>
    if la ≠ fa then
      throw ⟨ErrKind.valErr, mismatchMsg rule.1 (toString la) ident (toString fa)⟩
    else pure nts

/-- The linearization branch (source lines 170-185).  The duplicate check on
line 173 calls its message string (`"..." (ident,)`, the `%` is missing),
which raises `TypeError` instead of the intended `ValueError`. -/
def linBranch (st : RState) (ident : String) (rest : List Char) :
    Except PyErr RState := do
  let lin ← read_linearization rest
  if dcontains st.linearizations ident then
    throw ⟨ErrKind.typErr, strCallMsg⟩
  else
  let linearizations := dset st.linearizations ident lin
  let fa := lin.length
  let fun_arities := dset st.fun_arities ident fa
  let nonterms ← ((dlookup st.functions ident).getD []).foldlM (linPropStep fa ident) st.nonterms
  let sequences := lin.foldl (fun sq s => dsetdefault sq s none) st.sequences
  if dcontains nonterms ident || dcontains sequences ident then
    throw ⟨ErrKind.valErr,
      ("Function ") ++ pyRepr ident ++ (" already occurs as a nonterminal or a sequence identifier")⟩
  else pure { st with linearizations := linearizations, fun_arities := fun_arities,
                      nonterms := nonterms, sequences := sequences }

/-- The sequence branch (source lines 187-195).  `sequences.get(ident) is
not None` lets a body replace a `None` placeholder but rejects a second
body. -/
def seqBranch (st : RState) (ident : String) (rest : List Char) :
    Except PyErr RState := do
  let tokens ← readSeqChars rest
  if ((dlookup st.sequences ident).join).isSome then
    throw ⟨ErrKind.valErr, ("Duplicate sequence for ") ++ pyRepr ident⟩
  else
  let sequences := dset st.sequences ident (some tokens)
  let seq_arities := dset st.seq_arities ident (collect_max_arities [] tokens)
  if dcontains st.nonterms ident || dcontains st.linearizations ident
      || dcontains st.functions ident then
    throw ⟨ErrKind.valErr,
      ("Sequence ") ++ pyRepr ident ++ (" already occurs as a nonterminal or a function")⟩
  else pure { st with sequences := sequences, seq_arities := seq_arities }

/-- Python `int(keyword)` for a whitespace-free field: optional sign then a
digit run with single underscores between digits. -/
def digitsUTail : List Char → Bool
  | [] => true
  | c :: rest =>
    if c = '_' then
      match rest with
      | [] => false
      | d :: rest' => d.isDigit && digitsUTail rest'
    else c.isDigit && digitsUTail rest

def digitsU (l : List Char) : Bool :=
  match l with
  | [] => false
  | c :: rest => c.isDigit && digitsUTail rest

def pyIntParse (s : List Char) : Option Int :=
  match s with
  | [] => none
  | c :: rest =>
    if c = '+' then
      if digitsU rest then some ((natOfDigits (rest.filter Char.isDigit) : Int)) else none
    else if c = '-' then
      if digitsU rest then some (-(natOfDigits (rest.filter Char.isDigit) : Int)) else none
    else if digitsU (c :: rest) then
      some ((natOfDigits ((c :: rest).filter Char.isDigit) : Int))
    else none

def stripSign (l : List Char) : List Char :=
  match l with
  | [] => []
  | c :: rest => if c = '+' || c = '-' then rest else c :: rest

/-- Split at the first occurrence of a character (used to check the float
grammar's mantissa and exponent). -/
def splitAtChar (t : Char) : List Char → Option (List Char × List Char)
  | [] => none
  | c :: rest =>
    if c = t then some ([], rest)
    else match splitAtChar t rest with
         | none => none
         | some (a, b) => some (c :: a, b)

def splitAtExp : List Char → Option (List Char × List Char)
  | [] => none
  | c :: rest =>
    if c = 'e' || c = 'E' then some ([], rest)
    else match splitAtExp rest with
         | none => none
         | some (a, b) => some (c :: a, b)

def mantissaValid (m : List Char) : Bool :=
  match splitAtChar '.' m with
  | none => digitsU m
  | some (a, b) =>
    (a.isEmpty || digitsU a) && (b.isEmpty || digitsU b) && !(a.isEmpty && b.isEmpty)

/-- Whether Python `float(keyword)` accepts a whitespace-free field:
optional sign, then `inf`/`infinity`/`nan` (case-insensitive) or a decimal
mantissa with optional exponent. -/
def pyFloatValid (s : List Char) : Bool :=
  let t := stripSign s
  let lower := t.map Char.toLower
  if lower = ("inf").data || lower = ("infinity").data || lower = ("nan").data then true
  else
    match splitAtExp t with
    | none => mantissaValid t
    | some (m, e) => mantissaValid m && digitsU (stripSign e)

/-- The score branch (source lines 197-209): `int` first, then `float`, else
`SyntaxError`; trailing text is a `SyntaxError`; the duplicate check on line
208 calls its message string (missing `%`), raising `TypeError`. -/
def scoreBranch (st : RState) (ident : String) (keyword : List Char)
    (rest : List Char) : Except PyErr RState := do
  let score ←
    match pyIntParse keyword with
    | some n => pure (PyNum.intVal n)
    | none =>
      if pyFloatValid keyword then pure (PyNum.floatVal (String.mk keyword))
      else throw ⟨ErrKind.synErr, ("Not a correct score: ") ++ pyRepr (String.mk keyword)⟩
  if rest ≠ [] then
    throw ⟨ErrKind.synErr,
      ("Extra information in score declaration: ") ++ pyRepr (String.mk rest)⟩
  else if dcontains st.scores ident then
    throw ⟨ErrKind.typErr, strCallMsg⟩
  else pure { st with scores := dset st.scores ident score }

/-- The pragma name/payload split (source lines 139-142): a marker followed
by whitespace has no name; otherwise the remainder is split into a name
field and a payload. -/
def pragmaSplit (cs : List Char) : Option String × List Char :=
  match cs with
  | d :: _ =>
    if pyIsSpace d then (none, cs)
    else (some (String.mk (wsplit2 cs).1), (wsplit2 cs).2)
  | [] => (some (String.mk (wsplit2 cs).1), (wsplit2 cs).2)

/-- One line of the `read_grammar` loop body (source lines 134-209), before
the `except` handler: skip blank and comment lines, record pragmas, then
split into identifier / keyword / rest and dispatch on the keyword. -/
def processLine (st : RState) (line : List Char) : Except PyErr RState :=
  let rest0 := line.dropWhile pyIsSpace
  match rest0 with
  | [] => .ok st
  | c :: cs =>
    if COMMENT.contains c then .ok st
    else if c = PRAGMA then
      let newPragmas := dappend st.pragmas (pragmaSplit cs).1 (String.mk (pyStrip (pragmaSplit cs).2))
      .ok { st with pragmas := newPragmas }
    else
      let p3 := wsplit3 rest0
      let identC := p3.1
      let keyword := p3.2.1
      let rest := p3.2.2
      let ident := String.mk identC
      let st := { st with last_ident := ident }
      if !is_identifier identC then
        .error ⟨ErrKind.synErr, ("Not an identifier: ") ++ pyRepr ident⟩
      else if keyword = RULE then ruleBranch st ident rest
      else if keyword = LINEARIZATION then linBranch st ident rest
      else if keyword = SEQUENCE then seqBranch st ident rest
      else scoreBranch st ident keyword rest

/-- The positional context appended by the `except` handler when no filename
is available (source line 214). -/
def errContext (line : String) : String :=
  (" [happened on input line: ") ++ pyRepr line ++ ("]")

/-- One loop iteration with the `except (SyntaxError, ValueError)` handler
(source lines 211-218): those two kinds are re-raised with the same kind and
the positional context appended; any other exception (the `TypeError` from
the broken duplicate messages) propagates untouched. -/
def readStep (st : RState) (line : String) : Except PyErr RState :=
  match processLine st line.data with
  | .ok st' => .ok st'
  | .error e =>
    match e.kind with
    | ErrKind.synErr => .error ⟨e.kind, e.msg ++ errContext line⟩
    | ErrKind.valErr => .error ⟨e.kind, e.msg ++ errContext line⟩
    | _ => .error e

/-- The deferred validation sweep (source lines 221-250), returning the list
of warning messages in emission order.  Where Python would join a `set` in
hash order, this model joins in insertion order (every claim exercising the
message has a singleton set).  Python's `seq_arities[seq]`, `fun_arities[fun]`
and `nonterms[lhs]` subscripts raise `KeyError` on a missing key, and
`rhs[arg]` raises `IndexError` past the end; the sweep is not guarded by the
per-line handler, so these propagate raw. -/
def vStepSeq (st : RState) (a : List (Nat × Nat)) (s : String) :
    Except PyErr (List (Nat × Nat)) :=
  match dlookup st.seq_arities s with
  | none => throw ⟨ErrKind.keyErr, pyRepr s⟩
  | some items => pure (collect_max_pairs a items)

def vStepArg (st : RState) (fn : String) (rhs : List String) (acc3 : List String)
    (ar : Nat × Nat) : Except PyErr (List String) := do
  let acc3 :=
    if decide (rhs.length ≤ ar.1) then
      acc3 ++ [("Linearization for ") ++ pyRepr fn ++ (" refers to argument #")
               ++ toString ar.1 ++ (", but must be <") ++ toString rhs.length]
    else acc3
  match rhs.get? ar.1 with
  | none => throw ⟨ErrKind.idxErr, ("list index out of range")⟩
  | some rnt =>
    match (dlookup st.nonterms rnt).join with
    | none => pure (acc3 ++ [("Missing definition for nonterminal ") ++ pyRepr rnt])
    | some ra =>
      if ra ≤ ar.2 then
        pure (acc3 ++ [("Reference #") ++ toString ar.1 ++ (".") ++ toString ar.2
          ++ (" in linearization for ") ++ pyRepr fn ++ (" does not match arity ")
          ++ pyRepr rnt ++ ("/") ++ toString ra])
      else pure acc3

def vStepRule (st : RState) (fn : String) (arities : List (Nat × Nat)) (fa : Nat)
    (acc2 : List String) (rule : String × List String) : Except PyErr (List String) := do
  let la ←
    match dlookup st.nonterms rule.1 with
    | none => throw (⟨ErrKind.keyErr, pyRepr rule.1⟩ : PyErr)
    | some v => pure v
  let acc2 :=
    if la ≠ some fa then
      acc2 ++ [mismatchMsg rule.1 (pyStrOptNat la) st.last_ident (toString fa)]
    else acc2
  arities.foldlM (vStepArg st fn rule.2) acc2

def vStepFun (st : RState) (acc : List String)
    (fp : String × List (String × List String)) : Except PyErr (List String) :=
  match dlookup st.linearizations fp.1 with
  | none => pure (acc ++ [("Missing linearization for function ") ++ pyRepr fp.1])
  | some lin => do
    let arities ← lin.foldlM (vStepSeq st) ([] : List (Nat × Nat))
    let fa ←
      match dlookup st.fun_arities fp.1 with
      | none => throw (⟨ErrKind.keyErr, pyRepr fp.1⟩ : PyErr)
      | some fa => pure fa
    fp.2.foldlM (vStepRule st fp.1 arities fa) acc

/-- The deferred validation sweep (source lines 221-250), returning the list
of warning messages in emission order.  Where Python would join a `set` in
hash order, this model joins in insertion order (every claim exercising the
message has a singleton set).  Python's `seq_arities[seq]` (`vStepSeq`),
`fun_arities[fun]` and `nonterms[lhs]` subscripts raise `KeyError` on a
missing key, and `rhs[arg]` (`vStepArg`) raises `IndexError` past the end;
the sweep is not guarded by the per-line handler, so these propagate raw. -/
def runValidate (st : RState) : Except PyErr (List String) :=
  let undefNts := (st.nonterms.filter (fun p => p.2 = none)).map (fun p => p.1)
  let w1 :=
    if undefNts.isEmpty then []
    else [("Undefined nonterminals: ") ++ String.intercalate " " undefNts]
  let undefSeqs := (st.sequences.filter (fun p => p.2 = none)).map (fun p => p.1)
  let w2 :=
    if undefSeqs.isEmpty then []
    else [("Undefined sequences: ") ++ String.intercalate " " undefSeqs]
  st.functions.foldlM (vStepFun st) (w1 ++ w2)

/-- Source `read_grammar` on an in-memory list of lines: fold the per-line
step, then (by default) run the deferred sweep; returns the six-dict grammar
and the emitted warnings. -/
def read_grammar (lines : List String) (validate : Bool := true) :
    Except PyErr (Grammar × List String) := do
  let st ← lines.foldlM readStep initState
  let ws ← if validate then runValidate st else pure []
  pure (mkGrammar st, ws)

/-- Source `str_token`: argument references print as `arg:ref`, terminal
strings via `repr`. -/
def str_token (t : Tok) : String :=
  match t with
  | Tok.argref a r => toString a ++ (":") ++ toString r
  | Tok.str s => pyRepr s

/-- Python `str` of a score for the writer.  `str` of an int prints its
decimal form; a float score prints as its stored literal (CPython would
re-format the IEEE value, which is outside this embedding; no claim
exercises float scores through the writer). -/
def pyStrNum (n : PyNum) : String :=
  match n with
  | PyNum.intVal i => toString i
  | PyNum.floatVal lit => lit

/-- Source `write_grammar` (lines 273-316) as the list of printed lines
(each `print(x)` emits one line, `print()` an empty one).  The source prints
the `Sequences` header and its loop twice (lines 304-306 and 308-310).
Writing a sequence whose body is the `None` placeholder raises `TypeError`
(`map(str_token, None)`).  The `iteritems` tuple special case is subsumed by
the typed model (rule lists are lists of pairs). -/
def write_grammar (g : Grammar) : Except PyErr (List String) := do
  let pragmaLines :=
    if g.pragmas.isEmpty then []
    else
      [("# Pragmas")] ++
      (g.pragmas.map (fun p =>
        p.2.map (fun prg => (":") ++ p.1.getD "" ++ (" ") ++ prg))).flatten ++ [""]
  let ruleLines :=
    (g.functions.map (fun p =>
      p.2.map (fun r =>
        p.1 ++ (" : ") ++ r.1 ++ (" <- ") ++ String.intercalate " " r.2))).flatten
  let linLines :=
    g.linearizations.map (fun p => p.1 ++ (" = ") ++ String.intercalate " " p.2)
  let seqLines ← g.sequences.mapM
    (fun p => do
      match p.2 with
      | none => throw (⟨ErrKind.typErr, ("'NoneType' object is not iterable")⟩ : PyErr)
      | some toks =>
        pure (p.1 ++ (" -> ") ++ String.intercalate " " (toks.map str_token)))
  let scoreLines := g.scores.map (fun p => p.1 ++ (" ") ++ pyStrNum p.2)
  pure ([""] ++ pragmaLines
    ++ [("# Functions/rules")] ++ ruleLines ++ [""]
    ++ [("# Linearizations")] ++ linLines ++ [""]
    ++ [("# Sequences")] ++ seqLines ++ [""]
    ++ [("# Sequences")] ++ seqLines ++ [""]
    ++ (if g.scores.isEmpty then [] else [("# Scores")] ++ scoreLines ++ [""]))

/-- Whether a raw input line is a sequence-body declaration for identifier
`s`: non-blank, not a comment, not a pragma, and its identifier / keyword
fields are `s` and the sequence marker. -/
def declaresSeqB (line : List Char) (s : String) : Bool :=
  match line.dropWhile pyIsSpace with
  | [] => false
  | c :: cs =>
    !COMMENT.contains c && c ≠ PRAGMA &&
    String.mk (wsplit3 (c :: cs)).1 = s && (wsplit3 (c :: cs)).2.1 = SEQUENCE

/-- C1: the claim asserts that write-then-read is the identity on models
parsed with no deferred-sweep warnings, with exactly one emitted sequence
line per sequence identifier.  The source's `write_grammar` prints the
`Sequences` section twice (lines 304-306 and 308-310), so the model parsed
from the single line `s -> 'a'` (no warnings) is written with its sequence
line emitted twice, and reading the emitted text back raises
`ValueError("Duplicate sequence for 's'")` instead of reproducing the
model. -/
theorem c1_write_read_roundtrip_fails :
    read_grammar [("s -> 'a'")] true =
      .ok (⟨[], [], [], [("s", some [Tok.str ("a")])], [], []⟩, []) ∧
    write_grammar ⟨[], [], [], [("s", some [Tok.str ("a")])], [], []⟩ =
      .ok ["", "# Functions/rules", "", "# Linearizations", "", "# Sequences",
           "s -> 'a'", "", "# Sequences", "s -> 'a'", ""] ∧
    List.count ("s -> 'a'")
        ["", "# Functions/rules", "", "# Linearizations", "", "# Sequences",
         "s -> 'a'", "", "# Sequences", "s -> 'a'", ""] = 2 ∧
    read_grammar
        ["", "# Functions/rules", "", "# Linearizations", "", "# Sequences",
         "s -> 'a'", "", "# Sequences", "s -> 'a'", ""] true =
      .error ⟨ErrKind.valErr,
        "Duplicate sequence for 's' [happened on input line: \"s -> 'a'\"]"⟩ :=
  ⟨rfl, rfl, rfl, rfl⟩

/-- C2: the claim asserts a `ValueError` for a duplicate linearization,
sequence body, or score.  Only the duplicate-sequence message (source line
190) is well formed; the duplicate-linearization and duplicate-score raises
(lines 173 and 208) call their format string without the `%` operator, so
CPython raises `TypeError("'str' object is not callable")` instead, and
that kind escapes the `except (SyntaxError, ValueError)` handler without
positional context. -/
theorem c2_duplicate_error_kinds :
    read_grammar [("f = l1"), ("f = l1")] true =
      .error ⟨ErrKind.typErr, strCallMsg⟩ ∧
    read_grammar [("s -> 'a'"), ("s -> 'b'")] true =
      .error ⟨ErrKind.valErr,
        "Duplicate sequence for 's' [happened on input line: \"s -> 'b'\"]"⟩ ∧
    read_grammar [("f 1"), ("f 2")] true =
      .error ⟨ErrKind.typErr, strCallMsg⟩ :=
  ⟨rfl, rfl, rfl⟩

/-- C3 counterexample: on the two-line input `f : S <- A`, `f = l1 l2` the
incremental pass raises nothing at all (it returns a completed state when
the deferred sweep is disabled): a rule alone does not fix its LHS
nonterminal's arity, so the linearization of arity 2 simply sets `S`'s
arity to 2.  With the sweep enabled the call fails, but with an
undecorated `KeyError` from `seq_arities['l1']`, not the claimed
`ValueError`. -/
theorem c3_two_line_input_not_rejected :
    read_grammar [("f : S <- A"), ("f = l1 l2")] false =
      .ok (⟨[], [("f", [("S", ["A"])])], [("f", ["l1", "l2"])],
            [("l1", none), ("l2", none)], [], [("A", none), ("S", some 2)]⟩, []) ∧
    read_grammar [("f : S <- A"), ("f = l1 l2")] true =
      .error ⟨ErrKind.keyErr, "'l1'"⟩ :=
  ⟨rfl, rfl⟩

/-- C3 amended: the incremental arity-mismatch `ValueError` fires only when
the LHS nonterminal's arity is already fixed to a conflicting value before
the linearization is read; `g = m1` followed by `g : S <- A` fixes `S` at
arity 1, so `f = l1 l2` (arity 2) for the rule `f : S <- B` is rejected
during the incremental pass. -/
theorem c3_arity_mismatch_when_prefixed :
    read_grammar [("g = m1"), ("g : S <- A"), ("f : S <- B"), ("f = l1 l2")] false =
      .error ⟨ErrKind.valErr,
        "Nonterminal 'S'/1 does not match function 'f'/2 [happened on input line: 'f = l1 l2']"⟩ :=
  rfl

/-- C4: the claim asserts namespace disjointness for every successfully
parsed input.  A rule's LHS nonterminal is only registered in `nonterms`
once an arity is known (source lines 154-160), so after `f : S <- A` the
sequence declaration `S -> 'x'` passes the clash check on line 194 and the
parse succeeds (deferred sweep included, warnings only): `S` is
simultaneously the recorded rule's LHS nonterminal and a sequence
identifier with a body. -/
theorem c4_namespace_clash_accepted :
    read_grammar [("f : S <- A"), ("S -> 'x'")] true =
      .ok (⟨[], [("f", [("S", ["A"])])], [], [("S", some [Tok.str ("x")])], [],
            [("A", none)]⟩,
           ["Undefined nonterminals: A", "Missing linearization for function 'f'"]) :=
  rfl

/-- C5: the claim asserts the deferred sweep only warns and never raises.
In the source, a linearization referencing a sequence with no recorded body
hits `seq_arities[seq]` (line 237) and raises `KeyError`, and an
out-of-range argument reference is warned about but then `rhs[arg]` (line
246) is evaluated anyway, raising `IndexError`; the same input with the
sweep disabled parses cleanly, showing the crash is the sweep's. -/
theorem c5_validation_sweep_raises :
    read_grammar [("f : S <- A"), ("f = l1")] true =
      .error ⟨ErrKind.keyErr, "'l1'"⟩ ∧
    read_grammar [("f : S <-"), ("f = l1"), ("l1 -> 0:0")] true =
      .error ⟨ErrKind.idxErr, "list index out of range"⟩ ∧
    read_grammar [("f : S <- A"), ("f = l1")] false =
      .ok (⟨[], [("f", [("S", ["A"])])], [("f", ["l1"])], [("l1", none)], [],
            [("A", none), ("S", some 1)]⟩, []) :=
  ⟨rfl, rfl, rfl⟩

/-- C8 counterexample: the claim asserts that a pragma marker followed by
nothing records the no-name (`None`-key) pragma.  On the bare line `:` the
source evaluates `rest[1:2].isspace()` on the empty string, which is
`False`, so the named branch runs and records the pragma under the empty
string key, not under `None`. -/
theorem c8_bare_marker_is_named :
    read_grammar [(":")] true =
      .ok (⟨[(some "", [""])], [], [], [], [], []⟩, []) ∧
    dlookup [((some "" : Option String), [""])] (none : Option String) = none :=
  ⟨rfl, rfl⟩

theorem scanQuote_lt (q : Char) (l content r : List Char)
    (h : scanQuote q l = some (content, r)) : r.length < l.length := by
  induction l using scanQuote.induct q generalizing content r with
  | case1 => simp [scanQuote] at h
  | case2 rest =>
    unfold scanQuote at h
    simp at h
    cases h.2
    simp
  | case3 hq =>
    unfold scanQuote at h
    simp [hq] at h
  | case4 rest hq =>
    unfold scanQuote at h
    simp [hq] at h
  | case5 c rest hc hnone hq ih =>
    unfold scanQuote at h
    simp [hq, hc, hnone] at h
  | case6 c rest hc content' r' hsome hq ih =>
    unfold scanQuote at h
    simp [hq, hc, hsome] at h
    cases h.2
    have := ih _ _ hsome
    simp only [List.length_cons]
    omega
  | case7 c rest hcq hcb hnone ih =>
    unfold scanQuote at h
    simp [hcq, hcb, hnone] at h
  | case8 c rest hcq hcb content' r' hsome ih =>
    unfold scanQuote at h
    simp [hcq, hcb, hsome] at h
    cases h.2
    have := ih _ _ hsome
    simp only [List.length_cons]
    omega

theorem scanQuote_suffix (q : Char) (l content r : List Char)
    (h : scanQuote q l = some (content, r)) : List.IsSuffix r l := by
  induction l using scanQuote.induct q generalizing content r with
  | case1 => simp [scanQuote] at h
  | case2 rest =>
    unfold scanQuote at h
    simp at h
    cases h.2
    exact List.suffix_cons _ _
  | case3 hq =>
    unfold scanQuote at h
    simp [hq] at h
  | case4 rest hq =>
    unfold scanQuote at h
    simp [hq] at h
  | case5 c rest hc hnone hq ih =>
    unfold scanQuote at h
    simp [hq, hc, hnone] at h
  | case6 c rest hc content' r' hsome hq ih =>
    unfold scanQuote at h
    simp [hq, hc, hsome] at h
    cases h.2
    exact ((ih _ _ hsome).trans (List.suffix_cons _ _)).trans (List.suffix_cons _ _)
  | case7 c rest hcq hcb hnone ih =>
    unfold scanQuote at h
    simp [hcq, hcb, hnone] at h
  | case8 c rest hcq hcb content' r' hsome ih =>
    unfold scanQuote at h
    simp [hcq, hcb, hsome] at h
    cases h.2
    exact (ih _ _ hsome).trans (List.suffix_cons _ _)

theorem afterTok_le (l r : List Char) (h : afterTok l = some r) :
    r.length ≤ l.length := by
  cases l with
  | nil =>
    simp [afterTok] at h
    subst h
    simp
  | cons c cs =>
    simp only [afterTok] at h
    split at h
    · cases h
      exact (List.dropWhile_sublist _).length_le
    · cases h

theorem afterTok_suffix (l r : List Char) (h : afterTok l = some r) :
    List.IsSuffix r l := by
  cases l with
  | nil =>
    simp [afterTok] at h
    subst h
    exact List.suffix_refl _
  | cons c cs =>
    simp only [afterTok] at h
    split at h
    · cases h
      exact List.dropWhile_suffix pyIsSpace
    · cases h

theorem matchSeqRaw_lt (l : List Char) (t : RawTok) (r : List Char)
    (h : matchSeqRaw l = some (t, r)) : r.length < l.length := by
  cases l with
  | nil => simp [matchSeqRaw] at h
  | cons c cs =>
    simp only [matchSeqRaw] at h
    split at h
    · cases hq : scanQuote c cs with
      | none => simp only [hq] at h; cases h
      | some p =>
        obtain ⟨content, r0⟩ := p
        simp only [hq] at h
        cases ha : afterTok r0 with
        | none => simp only [ha] at h; cases h
        | some r' =>
          simp only [ha] at h
          cases h
          have h1 := afterTok_le _ _ ha
          have h2 := scanQuote_lt _ _ _ _ hq
          simp only [List.length_cons]
          omega
    · split at h
      · cases hd : (c :: cs).dropWhile Char.isDigit with
        | nil => simp only [hd] at h; cases h
        | cons d r2 =>
          simp only [hd] at h
          split at h
          · split at h
            · cases h
            · cases ha : afterTok (r2.dropWhile Char.isDigit) with
              | none => simp only [ha] at h; cases h
              | some r' =>
                simp only [ha] at h
                cases h
                have h1 := afterTok_le _ _ ha
                have h2 : (r2.dropWhile Char.isDigit).length ≤ r2.length :=
                  (List.dropWhile_sublist _).length_le
                have h3 : (d :: r2).length ≤ (c :: cs).length := by
                  rw [← hd]
                  exact (List.dropWhile_sublist _).length_le
                simp only [List.length_cons] at h3 ⊢
                omega
          · cases h
      · cases h

theorem matchSeqRaw_suffix (l : List Char) (t : RawTok) (r : List Char)
    (h : matchSeqRaw l = some (t, r)) : List.IsSuffix r l := by
  cases l with
  | nil => simp [matchSeqRaw] at h
  | cons c cs =>
    simp only [matchSeqRaw] at h
    split at h
    · cases hq : scanQuote c cs with
      | none => simp only [hq] at h; cases h
      | some p =>
        obtain ⟨content, r0⟩ := p
        simp only [hq] at h
        cases ha : afterTok r0 with
        | none => simp only [ha] at h; cases h
        | some r' =>
          simp only [ha] at h
          cases h
          exact ((afterTok_suffix _ _ ha).trans (scanQuote_suffix _ _ _ _ hq)).trans
            (List.suffix_cons _ _)
    · split at h
      · cases hd : (c :: cs).dropWhile Char.isDigit with
        | nil => simp only [hd] at h; cases h
        | cons d r2 =>
          simp only [hd] at h
          split at h
          · split at h
            · cases h
            · cases ha : afterTok (r2.dropWhile Char.isDigit) with
              | none => simp only [ha] at h; cases h
              | some r' =>
                simp only [ha] at h
                cases h
                have h1 : List.IsSuffix r2 (d :: r2) := List.suffix_cons _ _
                have h2 : List.IsSuffix (d :: r2) (c :: cs) := by
                  rw [← hd]
                  exact List.dropWhile_suffix _
                exact ((afterTok_suffix _ _ ha).trans
                  (List.dropWhile_suffix Char.isDigit)).trans (h1.trans h2)
          · cases h
      · cases h

theorem pyEscHexX_error_kind (p : Nat) (rest : List Char) (e : PyErr)
    (h : pyEscHexX p rest = .error e) : e.kind = ErrKind.synErr := by
  rw [pyEscHexX.eq_def] at h
  repeat' split at h
  all_goals cases h <;> rfl

theorem pyEscU4_error_kind (p : Nat) (rest : List Char) (e : PyErr)
    (h : pyEscU4 p rest = .error e) : e.kind = ErrKind.synErr := by
  rw [pyEscU4.eq_def] at h
  repeat' split at h
  all_goals cases h <;> rfl

theorem pyEscU8_error_kind (p : Nat) (rest : List Char) (e : PyErr)
    (h : pyEscU8 p rest = .error e) : e.kind = ErrKind.synErr := by
  rw [pyEscU8.eq_def] at h
  repeat' split at h
  all_goals cases h <;> rfl

theorem pyEscN_error_kind (p : Nat) (rest : List Char) (e : PyErr)
    (h : pyEscN p rest = .error e) : e.kind = ErrKind.synErr := by
  rw [pyEscN.eq_def] at h
  repeat' split at h
  all_goals cases h <;> rfl

theorem pyEscape_error_kind (p : Nat) (d : Char) (rest : List Char) (e : PyErr)
    (h : pyEscape p d rest = .error e) : e.kind = ErrKind.synErr := by
  rw [pyEscape.eq_def] at h
  by_cases c1 : d = '\n'
  · rw [if_pos c1] at h
    cases h
  · rw [if_neg c1] at h
    by_cases c2 : d = 'n'
    · rw [if_pos c2] at h
      cases h
    · rw [if_neg c2] at h
      by_cases c3 : d = 't'
      · rw [if_pos c3] at h
        cases h
      · rw [if_neg c3] at h
        by_cases c4 : d = 'r'
        · rw [if_pos c4] at h
          cases h
        · rw [if_neg c4] at h
          by_cases c5 : d = BSL
          · rw [if_pos c5] at h
            cases h
          · rw [if_neg c5] at h
            by_cases c6 : d = SQ
            · rw [if_pos c6] at h
              cases h
            · rw [if_neg c6] at h
              by_cases c7 : d = '"'
              · rw [if_pos c7] at h
                cases h
              · rw [if_neg c7] at h
                by_cases c8 : d = 'a'
                · rw [if_pos c8] at h
                  cases h
                · rw [if_neg c8] at h
                  by_cases c9 : d = 'b'
                  · rw [if_pos c9] at h
                    cases h
                  · rw [if_neg c9] at h
                    by_cases c10 : d = 'f'
                    · rw [if_pos c10] at h
                      cases h
                    · rw [if_neg c10] at h
                      by_cases c11 : d = 'v'
                      · rw [if_pos c11] at h
                        cases h
                      · rw [if_neg c11] at h
                        by_cases c12 : isOctDig d = true
                        · rw [if_pos c12] at h
                          cases h
                        · rw [if_neg c12] at h
                          by_cases c13 : d = 'x'
                          · rw [if_pos c13] at h
                            exact pyEscHexX_error_kind _ _ _ h
                          · rw [if_neg c13] at h
                            by_cases c14 : d = 'u'
                            · rw [if_pos c14] at h
                              exact pyEscU4_error_kind _ _ _ h
                            · rw [if_neg c14] at h
                              by_cases c15 : d = 'U'
                              · rw [if_pos c15] at h
                                exact pyEscU8_error_kind _ _ _ h
                              · rw [if_neg c15] at h
                                by_cases c16 : d = 'N'
                                · rw [if_pos c16] at h
                                  exact pyEscN_error_kind _ _ _ h
                                · rw [if_neg c16] at h
                                  cases h

theorem pyEvalLitF_error_kind (fuel : Nat) : ∀ (p : Nat) (l : List Char) (e : PyErr),
    pyEvalLitF fuel p l = .error e → e.kind = ErrKind.synErr := by
  induction fuel with
  | zero => intro p l e h; simp [pyEvalLitF] at h
  | succ n ih =>
    intro p l e h
    cases l with
    | nil => simp [pyEvalLitF] at h
    | cons c rest =>
      unfold pyEvalLitF at h
      split at h
      · injection h with h1
        rw [← h1]
      · split at h
        · cases rest with
          | nil =>
            have h' : (Except.error (⟨ErrKind.synErr, unterminatedMsg⟩ : PyErr) :
                Except PyErr (List Char)) = Except.error e := h
            injection h' with h1
            rw [← h1]
          | cons d rest2 =>
            cases hesc : pyEscape p d rest2 with
            | error e0 =>
              simp only [hesc] at h
              cases h
              exact pyEscape_error_kind _ _ _ _ hesc
            | ok pr =>
              obtain ⟨out, remaining⟩ := pr
              simp only [hesc] at h
              cases hrec : pyEvalLitF n (p + 2 + (rest2.length - remaining.length)) remaining with
              | error e0 =>
                simp only [hrec] at h
                cases h
                exact ih _ _ _ hrec
              | ok s => simp only [hrec] at h; cases h
        · cases hrec : pyEvalLitF n (p + 1) rest with
          | error e0 =>
            simp only [hrec] at h
            cases h
            exact ih _ _ _ hrec
          | ok s => simp only [hrec] at h; cases h

theorem pyEvalLit_error_kind (l : List Char) (e : PyErr)
    (h : pyEvalLit l = .error e) : e.kind = ErrKind.synErr :=
  pyEvalLitF_error_kind _ _ _ _ h

theorem readSeqF_error (fuel : Nat) : ∀ (cs : List Char) (e : PyErr),
    cs.length < fuel → readSeqF fuel cs = .error e →
    e.kind = ErrKind.synErr ∧
    ((∃ rest, rest ≠ [] ∧ List.IsSuffix rest cs ∧ matchSeqRaw rest = none ∧
        e = ⟨ErrKind.synErr, ("Not a sequence token: ") ++ pyRepr (String.mk rest)⟩) ∨
     (∃ rest q content r, List.IsSuffix rest cs ∧
        matchSeqRaw rest = some (RawTok.quoted q content, r) ∧
        pyEvalLit content = .error e)) := by
  induction fuel with
  | zero => intro cs e hf h; omega
  | succ n ih =>
    intro cs e hf h
    cases cs with
    | nil => simp [readSeqF] at h
    | cons c cs' =>
      unfold readSeqF at h
      cases hm : matchSeqRaw (c :: cs') with
      | none =>
        simp only [hm] at h
        refine ⟨?_, Or.inl ⟨c :: cs', by simp, List.suffix_refl _, hm, ?_⟩⟩
        · cases h
          rfl
        · cases h
          rfl
      | some p =>
        obtain ⟨raw, r⟩ := p
        simp only [hm] at h
        cases he : evalRawTok raw with
        | error e0 =>
          simp only [he] at h
          cases h
          cases raw with
          | argref a b => simp [evalRawTok] at he
          | quoted q content =>
            cases hpe : pyEvalLit content with
            | error e1 =>
              have h2 : evalRawTok (RawTok.quoted q content) = Except.error e1 := by
                simp only [evalRawTok, hpe]
              have he' : Except.error e1 = Except.error e := h2.symm.trans he
              injection he' with h1
              subst h1
              exact ⟨pyEvalLit_error_kind _ _ hpe,
                Or.inr ⟨c :: cs', q, content, r, List.suffix_refl _, hm, hpe⟩⟩
            | ok s => simp [evalRawTok, hpe] at he
        | ok t =>
          simp only [he] at h
          cases hr : readSeqF n r with
          | error e1 =>
            simp only [hr] at h
            cases h
            have hlt := matchSeqRaw_lt _ _ _ hm
            simp only [List.length_cons] at hf hlt
            obtain ⟨hk, hdisj⟩ := ih r e (by omega) hr
            refine ⟨hk, ?_⟩
            rcases hdisj with ⟨rest, h1, h2, h3, h4⟩ | ⟨rest, q, content, r2, h2, h3, h4⟩
            · exact Or.inl ⟨rest, h1, h2.trans (matchSeqRaw_suffix _ _ _ hm), h3, h4⟩
            · exact Or.inr ⟨rest, q, content, r2, h2.trans (matchSeqRaw_suffix _ _ _ hm), h3, h4⟩
          | ok ts =>
            simp only [hr] at h
            cases h

/-- C7: the sequence body consisting of a double-quoted literal, an
argument reference `0:1` and a single-quoted literal tokenizes to exactly
the three expected tokens; whenever the scan stands at a position (a
nonempty unconsumed suffix of the input) where no token matches,
`read_sequence` raises the `SyntaxError` whose message renders (via `%r`,
modelled by `pyRepr`) exactly that unmatched remainder, and only the error
is returned, no tokens after the failure point; and every failure of
`read_sequence` is a `SyntaxError`: either the no-match error naming a
reached unmatched suffix, or the error `eval` (source line 70, modelled by
`pyEvalLit`) raises on a quoted literal matched at a reached suffix. -/
theorem c7_tokenizer :
    read_sequence ("\"hi there\" 0:1 'x'") =
      .ok [Tok.str ("hi there"), Tok.argref 0 1, Tok.str ("x")] ∧
    (∀ (cs : List Char), cs ≠ [] → matchSeqRaw cs = none →
      readSeqChars cs =
        .error ⟨ErrKind.synErr, ("Not a sequence token: ") ++ pyRepr (String.mk cs)⟩) ∧
    (∀ (s : String) (e : PyErr), read_sequence s = .error e →
      e.kind = ErrKind.synErr ∧
      ((∃ rest, rest ≠ [] ∧ List.IsSuffix rest s.data ∧ matchSeqRaw rest = none ∧
          e = ⟨ErrKind.synErr, ("Not a sequence token: ") ++ pyRepr (String.mk rest)⟩) ∨
       (∃ rest q content r, List.IsSuffix rest s.data ∧
          matchSeqRaw rest = some (RawTok.quoted q content, r) ∧
          pyEvalLit content = .error e))) := by
  refine ⟨rfl, ?_, ?_⟩
  · intro cs hne hm
    cases cs with
    | nil => exact absurd rfl hne
    | cons c cs' =>
      show readSeqF _ _ = _
      unfold readSeqF
      rw [hm]
  · intro s e h
    exact readSeqF_error (s.data.length + 1) s.data e (by omega) h

/-- C7 witness: instantiating the failure characterization at the concrete
input consisting of a double-quoted literal containing the truncated escape
backslash-x, on which the regex matches a token but `eval` raises its
truncated-escape SyntaxError. -/
theorem c7_tokenizer_witness :
    (⟨ErrKind.synErr, ("(unicode error) 'unicodeescape' codec can't decode bytes in position 0-1: truncated \\xXX escape")⟩ : PyErr).kind =
      ErrKind.synErr ∧
    ((∃ rest, rest ≠ [] ∧ List.IsSuffix rest (String.data ("\"\\x\"")) ∧
        matchSeqRaw rest = none ∧
        (⟨ErrKind.synErr, ("(unicode error) 'unicodeescape' codec can't decode bytes in position 0-1: truncated \\xXX escape")⟩ : PyErr) =
          ⟨ErrKind.synErr, ("Not a sequence token: ") ++ pyRepr (String.mk rest)⟩) ∨
     (∃ rest q content r, List.IsSuffix rest (String.data ("\"\\x\"")) ∧
        matchSeqRaw rest = some (RawTok.quoted q content, r) ∧
        pyEvalLit content =
          .error ⟨ErrKind.synErr, ("(unicode error) 'unicodeescape' codec can't decode bytes in position 0-1: truncated \\xXX escape")⟩)) :=
  c7_tokenizer.2.2 ("\"\\x\"")
    ⟨ErrKind.synErr, ("(unicode error) 'unicodeescape' codec can't decode bytes in position 0-1: truncated \\xXX escape")⟩ rfl

theorem read_grammar_one (l : String) (st : RState)
    (h : processLine initState l.data = .ok st)
    (hn : st.nonterms = []) (hs : st.sequences = []) (hf : st.functions = []) :
    read_grammar [l] true = .ok (mkGrammar st, []) := by
  unfold read_grammar
  simp only [List.foldlM_cons, List.foldlM_nil, readStep, h]
  have hv : runValidate st = .ok ([] : List String) := by
    unfold runValidate
    rw [hn, hs, hf]
    rfl
  show Prod.mk (mkGrammar st) <$> runValidate st = Except.ok (mkGrammar st, [])
  rw [hv]
  rfl

/-- C8 amended: a pragma line whose marker is followed by a whitespace
character records the pragma under the no-name (`None`) key with the
stripped remainder as payload; a marker immediately followed by a non-space
character records a named pragma whose (nonempty) name is the first
whitespace field of the remainder and whose payload is the stripped second
field; a bare marker followed by nothing records a pragma named by the
empty string (not the `None` key, since `"".isspace()` is false). -/
theorem c8_pragma_name_split :
    (∀ (c : Char) (cs : List Char), pyIsSpace c = true →
      read_grammar [String.mk (PRAGMA :: c :: cs)] true =
        .ok (⟨[(none, [String.mk (pyStrip (c :: cs))])], [], [], [], [], []⟩, [])) ∧
    (∀ (c : Char) (cs : List Char), pyIsSpace c = false →
      read_grammar [String.mk (PRAGMA :: c :: cs)] true =
        .ok (⟨[(some (String.mk (wsplit2 (c :: cs)).1),
                [String.mk (pyStrip (wsplit2 (c :: cs)).2)])], [], [], [], [], []⟩, []) ∧
      String.mk (wsplit2 (c :: cs)).1 ≠ "") ∧
    read_grammar [String.mk [PRAGMA]] true =
      .ok (⟨[(some "", [""])], [], [], [], [], []⟩, []) := by
  refine ⟨?_, ?_, rfl⟩
  · intro c cs hc
    apply read_grammar_one _
      ⟨[(none, [String.mk (pyStrip (c :: cs))])], [], [], [], [], [], [], [], ""⟩
    · unfold processLine
      simp [List.dropWhile_cons, hc, dappend, dlookup, initState, pragmaSplit,
        show pyIsSpace PRAGMA = false from rfl, (by decide : ¬ PRAGMA ∈ COMMENT)]
    · rfl
    · rfl
    · rfl
  · intro c cs hc
    constructor
    · apply read_grammar_one _
        ⟨[(some (String.mk (wsplit2 (c :: cs)).1),
           [String.mk (pyStrip (wsplit2 (c :: cs)).2)])], [], [], [], [], [], [], [], ""⟩
      · unfold processLine
        simp [List.dropWhile_cons, hc, dappend, dlookup, initState, pragmaSplit,
          show pyIsSpace PRAGMA = false from rfl, (by decide : ¬ PRAGMA ∈ COMMENT)]
      · rfl
      · rfl
      · rfl
    · have hw : wsplitN 1 (c :: cs) =
          (c :: cs.takeWhile (fun d => !pyIsSpace d)) ::
            wsplitN 0 (cs.dropWhile (fun d => !pyIsSpace d)) := by
        conv_lhs => unfold wsplitN
        simp [List.dropWhile_cons, List.takeWhile_cons, hc]
      have h2 : (wsplit2 (c :: cs)).1 = c :: cs.takeWhile (fun d => !pyIsSpace d) := by
        unfold wsplit2
        rw [hw]
        cases wsplitN 0 (cs.dropWhile (fun d => !pyIsSpace d)) with
        | nil => rfl
        | cons b t => rfl
      rw [h2]
      intro heq
      have hdata := congrArg String.data heq
      simp at hdata

/-- C8 witness: the no-name case applied to the spec's Example 5 line,
`: encoding utf8` (the marker, a space, then the payload). -/
theorem c8_pragma_name_split_witness :
    read_grammar [String.mk (PRAGMA :: ' ' :: String.data ("encoding utf8"))] true =
      .ok (⟨[(none, [String.mk (pyStrip (' ' :: String.data ("encoding utf8")))])],
            [], [], [], [], []⟩, []) :=
  c8_pragma_name_split.1 ' ' (String.data ("encoding utf8")) rfl

theorem c9_score_parsing (l : String) (c : Char) (cs identC keyword rest : List Char)
    (hrest : l.data.dropWhile pyIsSpace = c :: cs)
    (hcm : ¬ c ∈ COMMENT) (hcp : c ≠ PRAGMA)
    (hsplit : wsplit3 (c :: cs) = (identC, keyword, rest))
    (hid : is_identifier identC = true)
    (hk1 : keyword ≠ RULE) (hk2 : keyword ≠ LINEARIZATION) (hk3 : keyword ≠ SEQUENCE) :
    (pyIntParse keyword = none → pyFloatValid keyword = false →
      read_grammar [l] true = .error ⟨ErrKind.synErr,
        ("Not a correct score: ") ++ pyRepr (String.mk keyword) ++ errContext l⟩) ∧
    (∀ n, pyIntParse keyword = some n → rest ≠ [] →
      read_grammar [l] true = .error ⟨ErrKind.synErr,
        ("Extra information in score declaration: ") ++ pyRepr (String.mk rest) ++ errContext l⟩) ∧
    (pyIntParse keyword = none → pyFloatValid keyword = true → rest ≠ [] →
      read_grammar [l] true = .error ⟨ErrKind.synErr,
        ("Extra information in score declaration: ") ++ pyRepr (String.mk rest) ++ errContext l⟩) ∧
    (∀ n, pyIntParse keyword = some n → rest = [] →
      read_grammar [l] true =
        .ok (⟨[], [], [], [], [(String.mk identC, PyNum.intVal n)], []⟩, [])) := by
  have hpl : processLine initState l.data =
      scoreBranch ⟨[], [], [], [], [], [], [], [], String.mk identC⟩
        (String.mk identC) keyword rest := by
    unfold processLine
    rw [hrest]
    simp [hcm, hcp, hsplit, hid, hk1, hk2, hk3, initState]
  refine ⟨?_, ?_, ?_, ?_⟩
  · intro hi hf
    have hsb : scoreBranch ⟨[], [], [], [], [], [], [], [], String.mk identC⟩
        (String.mk identC) keyword rest =
        .error ⟨ErrKind.synErr, ("Not a correct score: ") ++ pyRepr (String.mk keyword)⟩ := by
      unfold scoreBranch
      rw [hi, hf]
      rfl
    unfold read_grammar
    simp only [List.foldlM_cons, List.foldlM_nil, readStep, hpl, hsb]
    rfl
  · intro n hi hr
    have hsb : scoreBranch ⟨[], [], [], [], [], [], [], [], String.mk identC⟩
        (String.mk identC) keyword rest =
        .error ⟨ErrKind.synErr,
          ("Extra information in score declaration: ") ++ pyRepr (String.mk rest)⟩ := by
      unfold scoreBranch
      rw [hi]
      simp only [if_pos hr]
      rfl
    unfold read_grammar
    simp only [List.foldlM_cons, List.foldlM_nil, readStep, hpl, hsb]
    rfl
  · intro hi hf hr
    have hsb : scoreBranch ⟨[], [], [], [], [], [], [], [], String.mk identC⟩
        (String.mk identC) keyword rest =
        .error ⟨ErrKind.synErr,
          ("Extra information in score declaration: ") ++ pyRepr (String.mk rest)⟩ := by
      unfold scoreBranch
      rw [hi, hf]
      simp only [if_pos hr]
      rfl
    unfold read_grammar
    simp only [List.foldlM_cons, List.foldlM_nil, readStep, hpl, hsb]
    rfl
  · intro n hi hr
    have hsb : scoreBranch ⟨[], [], [], [], [], [], [], [], String.mk identC⟩
        (String.mk identC) keyword rest =
        .ok ⟨[], [], [], [], [(String.mk identC, PyNum.intVal n)], [], [], [], String.mk identC⟩ := by
      unfold scoreBranch
      rw [hi]
      subst hr
      rfl
    have hfin := read_grammar_one l
      ⟨[], [], [], [], [(String.mk identC, PyNum.intVal n)], [], [], [], String.mk identC⟩
      (by rw [hpl, hsb]) rfl rfl rfl
    exact hfin

/-- C9 witness: the line `f xx` (keyword parses as neither int nor float)
raises the decorated score SyntaxError. -/
theorem c9_score_parsing_witness :
    read_grammar [("f xx")] true = .error ⟨ErrKind.synErr,
      ("Not a correct score: ") ++ pyRepr ("xx") ++ errContext ("f xx")⟩ :=
  (c9_score_parsing ("f xx") 'f' (String.data (" xx")) (String.data ("f"))
    (String.data ("xx")) [] rfl (by decide) (by decide) rfl rfl (by decide)
    (by decide) (by decide)).1 rfl rfl


theorem ok_ne_error {β : Type} {b : β} {e : PyErr}
    (h : (Except.ok b : Except PyErr β) = Except.error e) : False := by
  cases h

theorem foldlM_error_mem {α β : Type} (f : β → α → Except PyErr β) :
    ∀ (xs : List α) (b : β) (e : PyErr), List.foldlM f b xs = .error e →
      ∃ x ∈ xs, ∃ b', f b' x = .error e := by
  intro xs
  induction xs with
  | nil =>
    intro b e h
    exact ((ok_ne_error h).elim)
  | cons a as ih =>
    intro b e h
    rw [List.foldlM_cons] at h
    cases hf : f b a with
    | error e' =>
      rw [hf] at h
      have h' : (Except.error e' : Except PyErr β) = Except.error e := h
      cases h'
      exact ⟨a, by simp, b, hf⟩
    | ok b' =>
      rw [hf] at h
      have h' : List.foldlM f b' as = Except.error e := h
      obtain ⟨x, hx, b'', hb⟩ := ih b' e h'
      exact ⟨x, by simp [hx], b'', hb⟩

theorem foldlM_error_kind {α β : Type} (f : β → α → Except PyErr β) (P : PyErr → Prop)
    (hstep : ∀ b x e, f b x = .error e → P e) (xs : List α) (b : β) (e : PyErr)
    (h : List.foldlM f b xs = .error e) : P e := by
  obtain ⟨x, _, b', hf⟩ := foldlM_error_mem f xs b e h
  exact hstep b' x e hf

theorem vStepSeq_error (st : RState) (a : List (Nat × Nat)) (s : String) (e : PyErr)
    (h : vStepSeq st a s = .error e) : e.kind = ErrKind.keyErr := by
  unfold vStepSeq at h
  cases hs : dlookup st.seq_arities s with
  | none =>
    rw [hs] at h
    have h' : (Except.error ⟨ErrKind.keyErr, pyRepr s⟩ : Except PyErr (List (Nat × Nat)))
        = Except.error e := h
    cases h'
    rfl
  | some items =>
    rw [hs] at h
    exact ((ok_ne_error h).elim)

theorem vStepArg_error (st : RState) (fn : String) (rhs : List String)
    (acc3 : List String) (ar : Nat × Nat) (e : PyErr)
    (h : vStepArg st fn rhs acc3 ar = .error e) : e.kind = ErrKind.idxErr := by
  unfold vStepArg at h
  cases hg : rhs.get? ar.1 with
  | none =>
    rw [hg] at h
    have h' : (Except.error ⟨ErrKind.idxErr, ("list index out of range")⟩
        : Except PyErr (List String)) = Except.error e := h
    cases h'
    rfl
  | some rnt =>
    rw [hg] at h
    have h' : (match (dlookup st.nonterms rnt).join with
        | none =>
          (pure ((if decide (rhs.length ≤ ar.1) then
              acc3 ++ [("Linearization for ") ++ pyRepr fn ++ (" refers to argument #")
                       ++ toString ar.1 ++ (", but must be <") ++ toString rhs.length]
            else acc3) ++ [("Missing definition for nonterminal ") ++ pyRepr rnt])
            : Except PyErr (List String))
        | some ra =>
          if ra ≤ ar.2 then
            pure ((if decide (rhs.length ≤ ar.1) then
                acc3 ++ [("Linearization for ") ++ pyRepr fn ++ (" refers to argument #")
                         ++ toString ar.1 ++ (", but must be <") ++ toString rhs.length]
              else acc3) ++ [("Reference #") ++ toString ar.1 ++ (".") ++ toString ar.2
                ++ (" in linearization for ") ++ pyRepr fn ++ (" does not match arity ")
                ++ pyRepr rnt ++ ("/") ++ toString ra])
          else
            pure (if decide (rhs.length ≤ ar.1) then
                acc3 ++ [("Linearization for ") ++ pyRepr fn ++ (" refers to argument #")
                         ++ toString ar.1 ++ (", but must be <") ++ toString rhs.length]
              else acc3)) = Except.error e := h
    cases hj : (dlookup st.nonterms rnt).join with
    | none =>
      rw [hj] at h'
      exact ((ok_ne_error h').elim)
    | some ra =>
      rw [hj] at h'
      have h2 : (if ra ≤ ar.2 then
          (pure ((if decide (rhs.length ≤ ar.1) then
              acc3 ++ [("Linearization for ") ++ pyRepr fn ++ (" refers to argument #")
                       ++ toString ar.1 ++ (", but must be <") ++ toString rhs.length]
            else acc3) ++ [("Reference #") ++ toString ar.1 ++ (".") ++ toString ar.2
              ++ (" in linearization for ") ++ pyRepr fn ++ (" does not match arity ")
              ++ pyRepr rnt ++ ("/") ++ toString ra]) : Except PyErr (List String))
        else
          pure (if decide (rhs.length ≤ ar.1) then
              acc3 ++ [("Linearization for ") ++ pyRepr fn ++ (" refers to argument #")
                       ++ toString ar.1 ++ (", but must be <") ++ toString rhs.length]
            else acc3)) = Except.error e := h'
      by_cases hra : ra ≤ ar.2
      · rw [if_pos hra] at h2
        exact ((ok_ne_error h2).elim)
      · rw [if_neg hra] at h2
        exact ((ok_ne_error h2).elim)

theorem vStepRule_error (st : RState) (fn : String) (arities : List (Nat × Nat))
    (fa : Nat) (acc2 : List String) (rule : String × List String) (e : PyErr)
    (h : vStepRule st fn arities fa acc2 rule = .error e) :
    e.kind = ErrKind.keyErr ∨ e.kind = ErrKind.idxErr := by
  unfold vStepRule at h
  cases hl : dlookup st.nonterms rule.1 with
  | none =>
    rw [hl] at h
    have h' : (Except.error ⟨ErrKind.keyErr, pyRepr rule.1⟩
        : Except PyErr (List String)) = Except.error e := h
    cases h'
    exact Or.inl rfl
  | some v =>
    rw [hl] at h
    have h' : arities.foldlM (vStepArg st fn rule.2)
        (if v ≠ some fa then
          acc2 ++ [mismatchMsg rule.1 (pyStrOptNat v) st.last_ident (toString fa)]
        else acc2) = Except.error e := h
    exact Or.inr (foldlM_error_kind _ (fun e => e.kind = ErrKind.idxErr)
      (fun b x e hs => vStepArg_error st fn rule.2 b x e hs) _ _ _ h')

theorem vStepFun_error (st : RState) (acc : List String)
    (fp : String × List (String × List String)) (e : PyErr)
    (h : vStepFun st acc fp = .error e) :
    e.kind = ErrKind.keyErr ∨ e.kind = ErrKind.idxErr := by
  unfold vStepFun at h
  cases hl : dlookup st.linearizations fp.1 with
  | none =>
    rw [hl] at h
    exact ((ok_ne_error h).elim)
  | some lin =>
    rw [hl] at h
    have h' : (do
        let arities ← lin.foldlM (vStepSeq st) ([] : List (Nat × Nat))
        let fa ←
          match dlookup st.fun_arities fp.1 with
          | none => throw (⟨ErrKind.keyErr, pyRepr fp.1⟩ : PyErr)
          | some fa => pure fa
        fp.2.foldlM (vStepRule st fp.1 arities fa) acc) = Except.error e := h
    cases har : lin.foldlM (vStepSeq st) ([] : List (Nat × Nat)) with
    | error e2 =>
      rw [har] at h'
      have h2 : (Except.error e2 : Except PyErr (List String)) = Except.error e := h'
      cases h2
      exact Or.inl (foldlM_error_kind _ (fun e => e.kind = ErrKind.keyErr)
        (fun b x e hs => vStepSeq_error st b x e hs) _ _ _ har)
    | ok arities =>
      rw [har] at h'
      cases hfa : dlookup st.fun_arities fp.1 with
      | none =>
        rw [hfa] at h'
        have h2 : (Except.error ⟨ErrKind.keyErr, pyRepr fp.1⟩
            : Except PyErr (List String)) = Except.error e := h'
        cases h2
        exact Or.inl rfl
      | some fa =>
        rw [hfa] at h'
        have h2 : fp.2.foldlM (vStepRule st fp.1 arities fa) acc = Except.error e := h'
        exact foldlM_error_kind _
          (fun e => e.kind = ErrKind.keyErr ∨ e.kind = ErrKind.idxErr)
          (fun b x e hs => vStepRule_error st fp.1 arities fa b x e hs) _ _ _ h2

theorem runValidate_error_kind (st : RState) (e : PyErr)
    (h : runValidate st = .error e) :
    e.kind = ErrKind.keyErr ∨ e.kind = ErrKind.idxErr := by
  unfold runValidate at h
  exact foldlM_error_kind _ (fun e => e.kind = ErrKind.keyErr ∨ e.kind = ErrKind.idxErr)
    (fun b x e hs => vStepFun_error st b x e hs) _ _ _ h

/-- C6: whenever `read_grammar` fails with a `SyntaxError` or `ValueError`
(the only kinds the per-line handler catches), the resulting error's message
is the underlying per-line error's message with the positional context of
the offending input line appended, and the error kind is the underlying
error's kind unchanged.  (The deferred sweep can only fail with `KeyError`
or `IndexError`, so every error of these two kinds comes from a line.) -/
theorem c6_error_context (lines : List String) (e : PyErr)
    (h : read_grammar lines true = .error e)
    (hk : e.kind = ErrKind.synErr ∨ e.kind = ErrKind.valErr) :
    ∃ l ∈ lines, ∃ m, e.msg = m ++ errContext l ∧
      ∃ st, processLine st l.data = .error ⟨e.kind, m⟩ := by
  unfold read_grammar at h
  cases hfold : lines.foldlM readStep initState with
  | error e2 =>
    rw [hfold] at h
    have h' : (Except.error e2 : Except PyErr (Grammar × List String)) = .error e := h
    cases h'
    obtain ⟨l, hl, st, hstep⟩ := foldlM_error_mem readStep lines initState e hfold
    unfold readStep at hstep
    cases hpl : processLine st l.data with
    | ok st2 =>
      rw [hpl] at hstep
      cases hstep
    | error e0 =>
      rw [hpl] at hstep
      rcases e0 with ⟨k0, m0⟩
      cases k0 with
      | synErr =>
        have h2 : (Except.error ⟨ErrKind.synErr, m0 ++ errContext l⟩
            : Except PyErr RState) = Except.error e := hstep
        cases h2
        exact ⟨l, hl, m0, rfl, st, hpl⟩
      | valErr =>
        have h2 : (Except.error ⟨ErrKind.valErr, m0 ++ errContext l⟩
            : Except PyErr RState) = Except.error e := hstep
        cases h2
        exact ⟨l, hl, m0, rfl, st, hpl⟩
      | typErr =>
        have h2 : (Except.error ⟨ErrKind.typErr, m0⟩
            : Except PyErr RState) = Except.error e := hstep
        cases h2
        rcases hk with h3 | h3 <;> cases h3
      | keyErr =>
        have h2 : (Except.error ⟨ErrKind.keyErr, m0⟩
            : Except PyErr RState) = Except.error e := hstep
        cases h2
        rcases hk with h3 | h3 <;> cases h3
      | idxErr =>
        have h2 : (Except.error ⟨ErrKind.idxErr, m0⟩
            : Except PyErr RState) = Except.error e := hstep
        cases h2
        rcases hk with h3 | h3 <;> cases h3
  | ok st =>
    rw [hfold] at h
    have h' : (Prod.mk (mkGrammar st) <$> runValidate st) = .error e := h
    cases hv : runValidate st with
    | error e2 =>
      rw [hv] at h'
      have h2 : (Except.error e2 : Except PyErr (Grammar × List String)) = .error e := h'
      cases h2
      rcases runValidate_error_kind st e hv with h3 | h3 <;>
        (rcases hk with h4 | h4 <;> (rw [h3] at h4; cases h4))
    | ok ws =>
      rw [hv] at h'
      have h2 : (Except.ok (mkGrammar st, ws) : Except PyErr (Grammar × List String))
          = .error e := h'
      exact ((ok_ne_error h2).elim)

/-- C6 witness: the malformed line `?` raises a decorated identifier
SyntaxError, and the context decomposition holds for it. -/
theorem c6_error_context_witness :
    ∃ l ∈ [("?")], ∃ m,
      ("Not an identifier: '?' [happened on input line: '?']") = m ++ errContext l ∧
      ∃ st, processLine st l.data =
        .error ⟨ErrKind.synErr, m⟩ :=
  c6_error_context [("?")]
    ⟨ErrKind.synErr, ("Not an identifier: '?' [happened on input line: '?']")⟩
    rfl (Or.inl rfl)

theorem dlookup_dset {α β : Type} [DecidableEq α] (d : List (α × β)) (k k' : α) (v : β) :
    dlookup (dset d k v) k' = if k = k' then some v else dlookup d k' := by
  induction d with
  | nil => simp [dset, dlookup]
  | cons p rest ih =>
    obtain ⟨k0, v0⟩ := p
    show dlookup (if k0 = k then (k0, v) :: rest else (k0, v0) :: dset rest k v) k' = _
    by_cases h0 : k0 = k
    · subst h0
      rw [if_pos rfl]
      by_cases h1 : k0 = k'
      · subst h1
        simp [dlookup]
      · simp [dlookup, if_neg h1]
    · rw [if_neg h0]
      by_cases h1 : k0 = k'
      · subst h1
        have hk : ¬ k = k0 := fun hh => h0 hh.symm
        simp [dlookup, if_neg hk]
      · simp only [dlookup, if_neg h1, ih]

theorem dcontains_dset_self {α β : Type} [DecidableEq α] (d : List (α × β)) (k : α) (v : β) :
    dcontains (dset d k v) k = true := by
  simp [dcontains, dlookup_dset]

theorem dcontains_dset_mono {α β : Type} [DecidableEq α] (d : List (α × β)) (k k' : α)
    (v : β) (h : dcontains d k' = true) : dcontains (dset d k v) k' = true := by
  simp only [dcontains, dlookup_dset]
  by_cases h0 : k = k' <;> simp_all [dcontains]

theorem dlookup_append_single {α β : Type} [DecidableEq α] (d : List (α × β)) (k k' : α)
    (v : β) :
    dlookup (d ++ [(k, v)]) k' =
      match dlookup d k' with
      | some w => some w
      | none => if k = k' then some v else none := by
  induction d with
  | nil => simp [dlookup]
  | cons p rest ih =>
    obtain ⟨k0, v0⟩ := p
    by_cases h0 : k0 = k' <;> simp_all [dlookup]

theorem dcontains_dsetdefault_self {α β : Type} [DecidableEq α] (d : List (α × β))
    (k : α) (v : β) : dcontains (dsetdefault d k v) k = true := by
  unfold dsetdefault
  by_cases h : dcontains d k
  · rw [if_pos h]
    exact h
  · rw [if_neg h]
    simp only [dcontains, dlookup_append_single]
    cases hl : dlookup d k with
    | some w => exact absurd (by simp [dcontains, hl]) h
    | none => simp

theorem dcontains_dsetdefault_mono {α β : Type} [DecidableEq α] (d : List (α × β))
    (k k' : α) (v : β) (h : dcontains d k' = true) :
    dcontains (dsetdefault d k v) k' = true := by
  unfold dsetdefault
  by_cases h0 : dcontains d k
  · rw [if_pos h0]
    exact h
  · rw [if_neg h0]
    simp only [dcontains, dlookup_append_single]
    simp only [dcontains] at h
    cases hl : dlookup d k' with
    | some w => simp
    | none => simp [hl] at h

theorem dlookup_dsetdefault_inv {α β : Type} [DecidableEq α] (d : List (α × β))
    (k k' : α) (v w : β) (h : dlookup (dsetdefault d k v) k' = some w) :
    dlookup d k' = some w ∨ w = v := by
  unfold dsetdefault at h
  by_cases h0 : dcontains d k
  · rw [if_pos h0] at h
    exact Or.inl h
  · rw [if_neg h0] at h
    rw [dlookup_append_single] at h
    cases hl : dlookup d k' with
    | some w' =>
      rw [hl] at h
      injection h with h2
      subst h2
      exact Or.inl rfl
    | none =>
      rw [hl] at h
      by_cases h1 : k = k'
      · rw [if_pos h1] at h
        injection h with h2
        subst h2
        exact Or.inr rfl
      · rw [if_neg h1] at h
        cases h

theorem dappend_inv {α β : Type} [DecidableEq α] (d : List (α × List β)) (k k' : α)
    (x y : β) (w : List β) (h : dlookup (dappend d k x) k' = some w) (hy : y ∈ w) :
    (∃ w', dlookup d k' = some w' ∧ y ∈ w') ∨ y = x := by
  unfold dappend at h
  cases hl : dlookup d k with
  | some xs =>
    rw [hl] at h
    rw [dlookup_dset] at h
    by_cases h1 : k = k'
    · rw [if_pos h1] at h
      injection h with h2
      subst h2
      rcases List.mem_append.mp hy with h3 | h3
      · refine Or.inl ⟨xs, ?_, h3⟩
        rw [← h1]
        exact hl
      · simp at h3
        exact Or.inr h3
    · rw [if_neg h1] at h
      exact Or.inl ⟨w, h, hy⟩
  | none =>
    rw [hl] at h
    rw [dlookup_append_single] at h
    cases hl' : dlookup d k' with
    | some w' =>
      rw [hl'] at h
      injection h with h2
      subst h2
      exact Or.inl ⟨w', rfl, hy⟩
    | none =>
      rw [hl'] at h
      by_cases h1 : k = k'
      · rw [if_pos h1] at h
        injection h with h2
        subst h2
        simp at hy
        exact Or.inr hy
      · rw [if_neg h1] at h
        cases h

theorem error_ne_ok {β : Type} {e : PyErr} {b : β}
    (h : (Except.error e : Except PyErr β) = Except.ok b) : False := by
  cases h

theorem ruleArityStep_mono (nts : List (String × Option Nat)) (faOpt : Option Nat)
    (lhs ident : String) (nts' : List (String × Option Nat))
    (h : ruleArityStep nts faOpt lhs ident = .ok nts') :
    ∀ k, dcontains nts k = true → dcontains nts' k = true := by
  unfold ruleArityStep at h
  cases faOpt with
  | none =>
    have h' : nts = nts' := by
      have h2 : (Except.ok nts : Except PyErr _) = .ok nts' := h
      injection h2
    subst h'
    exact fun k hk => hk
  | some fa =>
    cases hj : (dlookup nts lhs).join with
    | none =>
      rw [hj] at h
      have h2 : (Except.ok (dset nts lhs (some fa)) : Except PyErr _) = .ok nts' := h
      injection h2 with h3
      subst h3
      exact fun k hk => dcontains_dset_mono _ _ _ _ hk
    | some la =>
      rw [hj] at h
      have h1 : (if la ≠ fa then
          (throw ⟨ErrKind.valErr, mismatchMsg lhs (toString la) ident (toString fa)⟩
            : Except PyErr (List (String × Option Nat)))
        else pure nts) = Except.ok nts' := h
      by_cases hla : la ≠ fa
      · rw [if_pos hla] at h1
        exact ((error_ne_ok h1).elim)
      · rw [if_neg hla] at h1
        have h2 : (Except.ok nts : Except PyErr _) = .ok nts' := h1
        injection h2 with h3
        subst h3
        exact fun k hk => hk

theorem ruleRhsFold_ok (L : List (String × List String))
    (F : List (String × List (String × List String)))
    (S : List (String × Option (List Tok))) :
    ∀ (rhs : List String) (nts0 nts' : List (String × Option Nat)),
      rhs.foldlM (ruleRhsStep L F S) nts0 = .ok nts' →
      (∀ k, dcontains nts0 k = true → dcontains nts' k = true) ∧
      (∀ r, r ∈ rhs → dcontains nts' r = true) := by
  intro rhs
  induction rhs with
  | nil =>
    intro nts0 nts' h
    have h2 : (Except.ok nts0 : Except PyErr _) = .ok nts' := h
    injection h2 with h3
    subst h3
    exact ⟨fun k hk => hk, fun r hr => absurd hr (List.not_mem_nil r)⟩
  | cons r rs ih =>
    intro nts0 nts' h
    rw [List.foldlM_cons] at h
    cases hs : ruleRhsStep L F S nts0 r with
    | error e =>
      rw [hs] at h
      have h2 : (Except.error e : Except PyErr _) = .ok nts' := h
      exact ((error_ne_ok h2).elim)
    | ok nts1 =>
      rw [hs] at h
      have h' : rs.foldlM (ruleRhsStep L F S) nts1 = .ok nts' := h
      obtain ⟨mono, mem⟩ := ih nts1 nts' h'
      have hstep : nts1 = dsetdefault nts0 r none := by
        unfold ruleRhsStep at hs
        by_cases hc : (dcontains L r || dcontains F r || dcontains S r) = true
        · rw [if_pos hc] at hs
          exact ((error_ne_ok hs).elim)
        · rw [if_neg hc] at hs
          have h3 : (Except.ok (dsetdefault nts0 r none) : Except PyErr _) = .ok nts1 := hs
          injection h3 with h4
          exact h4.symm
      constructor
      · intro k hk
        refine mono k ?_
        rw [hstep]
        exact dcontains_dsetdefault_mono _ _ _ _ hk
      · intro r' hr'
        rcases List.mem_cons.mp hr' with h4 | h4
        · subst h4
          refine mono r' ?_
          rw [hstep]
          exact dcontains_dsetdefault_self _ _ _
        · exact mem r' h4

theorem linPropStep_mono (fa : Nat) (ident : String) (nts : List (String × Option Nat))
    (rule : String × List String) (nts' : List (String × Option Nat))
    (h : linPropStep fa ident nts rule = .ok nts') :
    ∀ k, dcontains nts k = true → dcontains nts' k = true := by
  unfold linPropStep at h
  cases hj : (dlookup nts rule.1).join with
  | none =>
    rw [hj] at h
    have h2 : (Except.ok (dset nts rule.1 (some fa)) : Except PyErr _) = .ok nts' := h
    injection h2 with h3
    subst h3
    exact fun k hk => dcontains_dset_mono _ _ _ _ hk
  | some la =>
    rw [hj] at h
    have h1 : (if la ≠ fa then
        (throw ⟨ErrKind.valErr, mismatchMsg rule.1 (toString la) ident (toString fa)⟩
          : Except PyErr (List (String × Option Nat)))
      else pure nts) = Except.ok nts' := h
    by_cases hla : la ≠ fa
    · rw [if_pos hla] at h1
      exact ((error_ne_ok h1).elim)
    · rw [if_neg hla] at h1
      have h2 : (Except.ok nts : Except PyErr _) = .ok nts' := h1
      injection h2 with h3
      subst h3
      exact fun k hk => hk

theorem linPropFold_mono (fa : Nat) (ident : String) :
    ∀ (rules : List (String × List String)) (nts0 nts' : List (String × Option Nat)),
      rules.foldlM (linPropStep fa ident) nts0 = .ok nts' →
      ∀ k, dcontains nts0 k = true → dcontains nts' k = true := by
  intro rules
  induction rules with
  | nil =>
    intro nts0 nts' h
    have h2 : (Except.ok nts0 : Except PyErr _) = .ok nts' := h
    injection h2 with h3
    subst h3
    exact fun k hk => hk
  | cons rule rs ih =>
    intro nts0 nts' h
    rw [List.foldlM_cons] at h
    cases hs : linPropStep fa ident nts0 rule with
    | error e =>
      rw [hs] at h
      exact ((error_ne_ok (show (Except.error e : Except PyErr _) = .ok nts' from h)).elim)
    | ok nts1 =>
      rw [hs] at h
      have h' : rs.foldlM (linPropStep fa ident) nts1 = .ok nts' := h
      exact fun k hk => ih nts1 nts' h' k (linPropStep_mono fa ident nts0 rule nts1 hs k hk)

theorem seqFold_facts :
    ∀ (lin : List String) (sq0 : List (String × Option (List Tok))),
      (∀ s, s ∈ lin →
        dcontains (lin.foldl (fun sq s => dsetdefault sq s none) sq0) s = true) ∧
      (∀ k, dcontains sq0 k = true →
        dcontains (lin.foldl (fun sq s => dsetdefault sq s none) sq0) k = true) ∧
      (∀ k w, dlookup (lin.foldl (fun sq s => dsetdefault sq s none) sq0) k = some (some w) →
        dlookup sq0 k = some (some w)) := by
  intro lin
  induction lin with
  | nil =>
    intro sq0
    exact ⟨fun s hs => absurd hs (List.not_mem_nil s), fun k hk => hk, fun k w hw => hw⟩
  | cons s ss ih =>
    intro sq0
    simp only [List.foldl_cons]
    obtain ⟨ihmem, ihmono, ihval⟩ := ih (dsetdefault sq0 s none)
    refine ⟨?_, ?_, ?_⟩
    · intro s' hs'
      rcases List.mem_cons.mp hs' with h1 | h1
      · subst h1
        exact ihmono s' (dcontains_dsetdefault_self _ _ _)
      · exact ihmem s' h1
    · intro k hk
      exact ihmono k (dcontains_dsetdefault_mono _ _ _ _ hk)
    · intro k w hw
      rcases dlookup_dsetdefault_inv sq0 s k none (some w) (ihval k w hw) with h1 | h1
      · exact h1
      · cases h1

theorem ruleBranch_facts (st : RState) (ident : String) (rest : List Char) (st' : RState)
    (h : ruleBranch st ident rest = .ok st') :
    st'.linearizations = st.linearizations ∧
    st'.sequences = st.sequences ∧
    (∀ k, dcontains st.nonterms k = true → dcontains st'.nonterms k = true) ∧
    ∃ lhs rhs,
      st'.functions = dappend st.functions ident (lhs, rhs) ∧
      (∀ r, r ∈ rhs → dcontains st'.nonterms r = true) := by
  unfold ruleBranch at h
  cases hr : read_rule rest with
  | error e =>
    rw [hr] at h
    exact ((error_ne_ok (show (Except.error e : Except PyErr RState) = .ok st' from h)).elim)
  | ok p =>
    obtain ⟨lhs, rhs⟩ := p
    rw [hr] at h
    have h0 : (do
        let nts1 ← ruleArityStep st.nonterms (dlookup st.fun_arities ident) lhs ident
        let nts2 ← rhs.foldlM
          (ruleRhsStep st.linearizations (dappend st.functions ident (lhs, rhs)) st.sequences)
          nts1
        if (dcontains st.linearizations lhs
            || dcontains (dappend st.functions ident (lhs, rhs)) lhs
            || dcontains st.sequences lhs) = true then
          (throw ⟨ErrKind.valErr,
            ("Nonterminal ") ++ pyRepr lhs
              ++ (" already occurs as a function or a sequence identifier")⟩ : Except PyErr RState)
        else if (dcontains nts2 ident || dcontains st.sequences ident) = true then
          throw ⟨ErrKind.valErr,
            ("Function ") ++ pyRepr ident
              ++ (" already occurs as a nonterminal or a sequence identifier")⟩
        else pure { st with functions := dappend st.functions ident (lhs, rhs), nonterms := nts2 }) =
        Except.ok st' := h
    cases ha : ruleArityStep st.nonterms (dlookup st.fun_arities ident) lhs ident with
    | error e =>
      rw [ha] at h0
      exact ((error_ne_ok (show (Except.error e : Except PyErr RState) = .ok st' from h0)).elim)
    | ok nts1 =>
      rw [ha] at h0
      have h1 : (do
          let nts2 ← rhs.foldlM
            (ruleRhsStep st.linearizations (dappend st.functions ident (lhs, rhs)) st.sequences)
            nts1
          if (dcontains st.linearizations lhs
              || dcontains (dappend st.functions ident (lhs, rhs)) lhs
              || dcontains st.sequences lhs) = true then
            (throw ⟨ErrKind.valErr,
              ("Nonterminal ") ++ pyRepr lhs
                ++ (" already occurs as a function or a sequence identifier")⟩ : Except PyErr RState)
          else if (dcontains nts2 ident || dcontains st.sequences ident) = true then
            throw ⟨ErrKind.valErr,
              ("Function ") ++ pyRepr ident
                ++ (" already occurs as a nonterminal or a sequence identifier")⟩
          else pure { st with functions := dappend st.functions ident (lhs, rhs), nonterms := nts2 }) =
          Except.ok st' := h0
      cases hf : rhs.foldlM
          (ruleRhsStep st.linearizations (dappend st.functions ident (lhs, rhs)) st.sequences)
          nts1 with
      | error e =>
        rw [hf] at h1
        exact ((error_ne_ok (show (Except.error e : Except PyErr RState) = .ok st' from h1)).elim)
      | ok nts2 =>
        rw [hf] at h1
        have h3 : (if (dcontains st.linearizations lhs
              || dcontains (dappend st.functions ident (lhs, rhs)) lhs
              || dcontains st.sequences lhs) = true then
            (throw ⟨ErrKind.valErr,
              ("Nonterminal ") ++ pyRepr lhs
                ++ (" already occurs as a function or a sequence identifier")⟩ : Except PyErr RState)
          else if (dcontains nts2 ident || dcontains st.sequences ident) = true then
            throw ⟨ErrKind.valErr,
              ("Function ") ++ pyRepr ident
                ++ (" already occurs as a nonterminal or a sequence identifier")⟩
          else pure { st with functions := dappend st.functions ident (lhs, rhs), nonterms := nts2 }) =
            Except.ok st' := h1
        by_cases hc1 : (dcontains st.linearizations lhs
            || dcontains (dappend st.functions ident (lhs, rhs)) lhs
            || dcontains st.sequences lhs) = true
        · rw [if_pos hc1] at h3
          exact ((error_ne_ok h3).elim)
        · rw [if_neg hc1] at h3
          by_cases hc2 : (dcontains nts2 ident || dcontains st.sequences ident) = true
          · rw [if_pos hc2] at h3
            exact ((error_ne_ok h3).elim)
          · rw [if_neg hc2] at h3
            have h4 : (Except.ok ({ st with functions := dappend st.functions ident (lhs, rhs), nonterms := nts2 } : RState) : Except PyErr RState) = .ok st' := h3
            injection h4 with h5
            subst h5
            obtain ⟨mono2, mem2⟩ := ruleRhsFold_ok st.linearizations
              (dappend st.functions ident (lhs, rhs)) st.sequences rhs nts1 nts2 hf
            refine ⟨rfl, rfl, ?_, lhs, rhs, rfl, ?_⟩
            · intro k hk
              exact mono2 k (ruleArityStep_mono st.nonterms (dlookup st.fun_arities ident)
                lhs ident nts1 ha k hk)
            · intro r hr2
              exact mem2 r hr2

theorem linBranch_facts (st : RState) (ident : String) (rest : List Char) (st' : RState)
    (h : linBranch st ident rest = .ok st') :
    st'.functions = st.functions ∧
    (∀ k, dcontains st.nonterms k = true → dcontains st'.nonterms k = true) ∧
    (∀ k, dcontains st.sequences k = true → dcontains st'.sequences k = true) ∧
    (∀ k w, dlookup st'.sequences k = some (some w) → dlookup st.sequences k = some (some w)) ∧
    ∃ lin,
      st'.linearizations = dset st.linearizations ident lin ∧
      (∀ s, s ∈ lin → dcontains st'.sequences s = true) := by
  unfold linBranch at h
  cases hl : read_linearization rest with
  | error e =>
    rw [hl] at h
    exact ((error_ne_ok (show (Except.error e : Except PyErr RState) = .ok st' from h)).elim)
  | ok lin =>
    rw [hl] at h
    have h0 : (if dcontains st.linearizations ident = true then
        (throw ⟨ErrKind.typErr, strCallMsg⟩ : Except PyErr RState)
      else do
        let nts1 ← ((dlookup st.functions ident).getD []).foldlM
          (linPropStep lin.length ident) st.nonterms
        if (dcontains nts1 ident
            || dcontains (lin.foldl (fun sq s => dsetdefault sq s none) st.sequences) ident) = true then
          (throw ⟨ErrKind.valErr,
            ("Function ") ++ pyRepr ident
              ++ (" already occurs as a nonterminal or a sequence identifier")⟩
            : Except PyErr RState)
        else pure { st with linearizations := dset st.linearizations ident lin, fun_arities := dset st.fun_arities ident lin.length, nonterms := nts1, sequences := lin.foldl (fun sq s => dsetdefault sq s none) st.sequences }) =
        Except.ok st' := h
    by_cases hdup : dcontains st.linearizations ident = true
    · rw [if_pos hdup] at h0
      exact ((error_ne_ok h0).elim)
    · rw [if_neg hdup] at h0
      cases hp : ((dlookup st.functions ident).getD []).foldlM
          (linPropStep lin.length ident) st.nonterms with
      | error e =>
        rw [hp] at h0
        exact ((error_ne_ok (show (Except.error e : Except PyErr RState) = .ok st' from h0)).elim)
      | ok nts1 =>
        rw [hp] at h0
        have h3 : (if (dcontains nts1 ident
              || dcontains (lin.foldl (fun sq s => dsetdefault sq s none) st.sequences) ident) = true then
            (throw ⟨ErrKind.valErr,
              ("Function ") ++ pyRepr ident
                ++ (" already occurs as a nonterminal or a sequence identifier")⟩
              : Except PyErr RState)
          else pure { st with linearizations := dset st.linearizations ident lin, fun_arities := dset st.fun_arities ident lin.length, nonterms := nts1, sequences := lin.foldl (fun sq s => dsetdefault sq s none) st.sequences }) =
            Except.ok st' := h0
        by_cases hc : (dcontains nts1 ident
            || dcontains (lin.foldl (fun sq s => dsetdefault sq s none) st.sequences) ident) = true
        · rw [if_pos hc] at h3
          exact ((error_ne_ok h3).elim)
        · rw [if_neg hc] at h3
          have h4 : (Except.ok ({ st with linearizations := dset st.linearizations ident lin, fun_arities := dset st.fun_arities ident lin.length, nonterms := nts1, sequences := lin.foldl (fun sq s => dsetdefault sq s none) st.sequences } : RState) : Except PyErr RState) = .ok st' := h3
          injection h4 with h5
          subst h5
          obtain ⟨smem, smono, sval⟩ := seqFold_facts lin st.sequences
          exact ⟨rfl,
            fun k hk => linPropFold_mono lin.length ident
              ((dlookup st.functions ident).getD []) st.nonterms nts1 hp k hk,
            fun k hk => smono k hk,
            fun k w hw => sval k w hw,
            lin, rfl, fun s hs => smem s hs⟩

theorem seqBranch_facts (st : RState) (ident : String) (rest : List Char) (st' : RState)
    (h : seqBranch st ident rest = .ok st') :
    st'.functions = st.functions ∧ st'.linearizations = st.linearizations ∧
    st'.nonterms = st.nonterms ∧
    ∃ tokens, st'.sequences = dset st.sequences ident (some tokens) := by
  unfold seqBranch at h
  cases ht : readSeqChars rest with
  | error e =>
    rw [ht] at h
    exact ((error_ne_ok (show (Except.error e : Except PyErr RState) = .ok st' from h)).elim)
  | ok tokens =>
    rw [ht] at h
    have h0 : (if ((dlookup st.sequences ident).join).isSome = true then
        (throw ⟨ErrKind.valErr, ("Duplicate sequence for ") ++ pyRepr ident⟩
          : Except PyErr RState)
      else if (dcontains st.nonterms ident || dcontains st.linearizations ident
          || dcontains st.functions ident) = true then
        throw ⟨ErrKind.valErr,
          ("Sequence ") ++ pyRepr ident ++ (" already occurs as a nonterminal or a function")⟩
      else pure { st with sequences := dset st.sequences ident (some tokens), seq_arities := dset st.seq_arities ident (collect_max_arities [] tokens) }) =
        Except.ok st' := h
    by_cases hdup : ((dlookup st.sequences ident).join).isSome = true
    · rw [if_pos hdup] at h0
      exact ((error_ne_ok h0).elim)
    · rw [if_neg hdup] at h0
      by_cases hc : (dcontains st.nonterms ident || dcontains st.linearizations ident
          || dcontains st.functions ident) = true
      · rw [if_pos hc] at h0
        exact ((error_ne_ok h0).elim)
      · rw [if_neg hc] at h0
        have h4 : (Except.ok ({ st with sequences := dset st.sequences ident (some tokens), seq_arities := dset st.seq_arities ident (collect_max_arities [] tokens) } : RState) : Except PyErr RState) = .ok st' := h0
        injection h4 with h5
        subst h5
        exact ⟨rfl, rfl, rfl, tokens, rfl⟩

theorem scoreBranch_facts (st : RState) (ident : String) (keyword rest : List Char)
    (st' : RState) (h : scoreBranch st ident keyword rest = .ok st') :
    st'.functions = st.functions ∧ st'.linearizations = st.linearizations ∧
    st'.sequences = st.sequences ∧ st'.nonterms = st.nonterms := by
  unfold scoreBranch at h
  have hgen : ∀ (sc : PyNum),
      ((if rest ≠ [] then
        (throw ⟨ErrKind.synErr,
          ("Extra information in score declaration: ") ++ pyRepr (String.mk rest)⟩
          : Except PyErr RState)
      else if dcontains st.scores ident = true then
        throw ⟨ErrKind.typErr, strCallMsg⟩
      else pure { st with scores := dset st.scores ident sc }) = Except.ok st') →
      st'.functions = st.functions ∧ st'.linearizations = st.linearizations ∧
      st'.sequences = st.sequences ∧ st'.nonterms = st.nonterms := by
    intro sc hh
    by_cases hr : rest ≠ []
    · rw [if_pos hr] at hh
      exact ((error_ne_ok hh).elim)
    · rw [if_neg hr] at hh
      by_cases hd : dcontains st.scores ident = true
      · rw [if_pos hd] at hh
        exact ((error_ne_ok hh).elim)
      · rw [if_neg hd] at hh
        have h4 : (Except.ok ({ st with scores := dset st.scores ident sc } : RState)
            : Except PyErr RState) = .ok st' := hh
        injection h4 with h5
        subst h5
        exact ⟨rfl, rfl, rfl, rfl⟩
  cases hi : pyIntParse keyword with
  | some n =>
    rw [hi] at h
    exact hgen (PyNum.intVal n) h
  | none =>
    rw [hi] at h
    by_cases hfv : pyFloatValid keyword = true
    · rw [hfv] at h
      exact hgen (PyNum.floatVal (String.mk keyword)) (by
        have h2 : (if True then
            (do
              let sc ← (pure (PyNum.floatVal (String.mk keyword)) : Except PyErr PyNum)
              if rest ≠ [] then
                (throw ⟨ErrKind.synErr,
                  ("Extra information in score declaration: ") ++ pyRepr (String.mk rest)⟩
                  : Except PyErr RState)
              else if dcontains st.scores ident = true then
                throw ⟨ErrKind.typErr, strCallMsg⟩
              else pure { st with scores := dset st.scores ident sc })
          else
            (throw ⟨ErrKind.synErr, ("Not a correct score: ") ++ pyRepr (String.mk keyword)⟩
              : Except PyErr RState)) = Except.ok st' := h
        simpa using h2)
    · have hfv2 : pyFloatValid keyword = false := by
        cases hx : pyFloatValid keyword
        · rfl
        · exact absurd hx hfv
      rw [hfv2] at h
      exact ((error_ne_ok (show (Except.error ⟨ErrKind.synErr,
        ("Not a correct score: ") ++ pyRepr (String.mk keyword)⟩
        : Except PyErr RState) = .ok st' from h)).elim)

theorem processLine_inv (st st' : RState) (line : List Char)
    (h : processLine st line = .ok st') (P : String → Prop)
    (h1 : ∀ f lin, dlookup st.linearizations f = some lin →
      ∀ s, s ∈ lin → dcontains st.sequences s = true)
    (h2 : ∀ f rules lhs rhs, dlookup st.functions f = some rules → (lhs, rhs) ∈ rules →
      ∀ r, r ∈ rhs → dcontains st.nonterms r = true)
    (h3 : ∀ s b, dlookup st.sequences s = some (some b) → P s) :
    (∀ f lin, dlookup st'.linearizations f = some lin →
      ∀ s, s ∈ lin → dcontains st'.sequences s = true) ∧
    (∀ f rules lhs rhs, dlookup st'.functions f = some rules → (lhs, rhs) ∈ rules →
      ∀ r, r ∈ rhs → dcontains st'.nonterms r = true) ∧
    (∀ s b, dlookup st'.sequences s = some (some b) → P s ∨ declaresSeqB line s = true) := by
  unfold processLine at h
  cases hrest : line.dropWhile pyIsSpace with
  | nil =>
    rw [hrest] at h
    obtain rfl := Except.ok.inj h
    exact ⟨h1, h2, fun s b hb => Or.inl (h3 s b hb)⟩
  | cons c cs =>
    rw [hrest] at h
    have h0 : (if COMMENT.contains c = true then (Except.ok st : Except PyErr RState)
      else if c = PRAGMA then
        Except.ok { st with pragmas := dappend st.pragmas (pragmaSplit cs).1 (String.mk (pyStrip (pragmaSplit cs).2)) }
      else if (!is_identifier (wsplit3 (c :: cs)).1) = true then
        Except.error ⟨ErrKind.synErr,
          ("Not an identifier: ") ++ pyRepr (String.mk (wsplit3 (c :: cs)).1)⟩
      else if (wsplit3 (c :: cs)).2.1 = RULE then
        ruleBranch { st with last_ident := String.mk (wsplit3 (c :: cs)).1 }
          (String.mk (wsplit3 (c :: cs)).1) (wsplit3 (c :: cs)).2.2
      else if (wsplit3 (c :: cs)).2.1 = LINEARIZATION then
        linBranch { st with last_ident := String.mk (wsplit3 (c :: cs)).1 }
          (String.mk (wsplit3 (c :: cs)).1) (wsplit3 (c :: cs)).2.2
      else if (wsplit3 (c :: cs)).2.1 = SEQUENCE then
        seqBranch { st with last_ident := String.mk (wsplit3 (c :: cs)).1 }
          (String.mk (wsplit3 (c :: cs)).1) (wsplit3 (c :: cs)).2.2
      else
        scoreBranch { st with last_ident := String.mk (wsplit3 (c :: cs)).1 }
          (String.mk (wsplit3 (c :: cs)).1) (wsplit3 (c :: cs)).2.1 (wsplit3 (c :: cs)).2.2) =
        Except.ok st' := h
    clear h
    by_cases hcm : COMMENT.contains c = true
    · rw [if_pos hcm] at h0
      obtain rfl := Except.ok.inj h0
      exact ⟨h1, h2, fun s b hb => Or.inl (h3 s b hb)⟩
    · rw [if_neg hcm] at h0
      by_cases hcp : c = PRAGMA
      · rw [if_pos hcp] at h0
        obtain rfl := Except.ok.inj h0
        exact ⟨h1, h2, fun s b hb => Or.inl (h3 s b hb)⟩
      · rw [if_neg hcp] at h0
        by_cases hid : is_identifier (wsplit3 (c :: cs)).1 = true
        · rw [if_neg (by simp [hid])] at h0
          by_cases hk1 : (wsplit3 (c :: cs)).2.1 = RULE
          · rw [if_pos hk1] at h0
            obtain ⟨e1, e2, mono, lhs, rhs, hfn, hmem⟩ := ruleBranch_facts _ _ _ _ h0
            refine ⟨?_, ?_, ?_⟩
            · intro f lin hf s hs
              rw [e1] at hf
              rw [e2]
              exact h1 f lin hf s hs
            · intro f rules lhs' rhs' hf hp r hr
              rw [hfn] at hf
              rcases dappend_inv _ _ _ _ _ _ hf hp with ⟨w', hw', hpw⟩ | hnew
              · exact mono r (h2 f w' lhs' rhs' hw' hpw r hr)
              · injection hnew with hl hr2
                subst hr2
                exact hmem r hr
            · intro s b hb
              rw [e2] at hb
              exact Or.inl (h3 s b hb)
          · rw [if_neg hk1] at h0
            by_cases hk2 : (wsplit3 (c :: cs)).2.1 = LINEARIZATION
            · rw [if_pos hk2] at h0
              obtain ⟨e1, nmono, smono, sval, lin, hlin, hmem⟩ := linBranch_facts _ _ _ _ h0
              refine ⟨?_, ?_, ?_⟩
              · intro f lin' hf s hs
                rw [hlin] at hf
                rw [dlookup_dset] at hf
                by_cases hfi : String.mk (wsplit3 (c :: cs)).1 = f
                · rw [if_pos hfi] at hf
                  injection hf with hf2
                  subst hf2
                  exact hmem s hs
                · rw [if_neg hfi] at hf
                  exact smono s (h1 f lin' hf s hs)
              · intro f rules lhs' rhs' hf hp r hr
                rw [e1] at hf
                exact nmono r (h2 f rules lhs' rhs' hf hp r hr)
              · intro s b hb
                exact Or.inl (h3 s b (sval s b hb))
            · rw [if_neg hk2] at h0
              by_cases hk3 : (wsplit3 (c :: cs)).2.1 = SEQUENCE
              · rw [if_pos hk3] at h0
                obtain ⟨ef, el, en, tokens, hseq⟩ := seqBranch_facts _ _ _ _ h0
                refine ⟨?_, ?_, ?_⟩
                · intro f lin hf s hs
                  rw [el] at hf
                  rw [hseq]
                  exact dcontains_dset_mono _ _ _ _ (h1 f lin hf s hs)
                · intro f rules lhs' rhs' hf hp r hr
                  rw [ef] at hf
                  rw [en]
                  exact h2 f rules lhs' rhs' hf hp r hr
                · intro s b hb
                  rw [hseq] at hb
                  rw [dlookup_dset] at hb
                  by_cases hsi : String.mk (wsplit3 (c :: cs)).1 = s
                  · refine Or.inr ?_
                    have hcm2 : COMMENT.contains c = false := by
                      revert hcm
                      cases COMMENT.contains c <;> simp
                    unfold declaresSeqB
                    rw [hrest]
                    simp [hcm2, hcp, hk3, hsi]
                    simpa using hcm2
                  · rw [if_neg hsi] at hb
                    exact Or.inl (h3 s b hb)
              · rw [if_neg hk3] at h0
                obtain ⟨ef, el, es, en⟩ := scoreBranch_facts _ _ _ _ _ h0
                refine ⟨?_, ?_, ?_⟩
                · intro f lin hf s hs
                  rw [el] at hf
                  rw [es]
                  exact h1 f lin hf s hs
                · intro f rules lhs' rhs' hf hp r hr
                  rw [ef] at hf
                  rw [en]
                  exact h2 f rules lhs' rhs' hf hp r hr
                · intro s b hb
                  rw [es] at hb
                  exact Or.inl (h3 s b hb)
        · rw [if_pos (show (!is_identifier (wsplit3 (c :: cs)).1) = true by simp [hid])] at h0
          exact ((error_ne_ok h0).elim)

theorem readStep_ok (st st' : RState) (l : String) (h : readStep st l = .ok st') :
    processLine st l.data = .ok st' := by
  unfold readStep at h
  cases hp : processLine st l.data with
  | ok st2 =>
    rw [hp] at h
    obtain rfl := Except.ok.inj h
    rfl
  | error e =>
    rw [hp] at h
    obtain ⟨k, m⟩ := e
    cases k <;> exact ((error_ne_ok (show (Except.error _ : Except PyErr RState)
      = .ok st' from h)).elim)

theorem foldLines_inv :
    ∀ (ls : List String) (st0 st' : RState) (P : String → Prop),
      ls.foldlM readStep st0 = .ok st' →
      (∀ f lin, dlookup st0.linearizations f = some lin →
        ∀ s, s ∈ lin → dcontains st0.sequences s = true) →
      (∀ f rules lhs rhs, dlookup st0.functions f = some rules → (lhs, rhs) ∈ rules →
        ∀ r, r ∈ rhs → dcontains st0.nonterms r = true) →
      (∀ s b, dlookup st0.sequences s = some (some b) → P s) →
      (∀ f lin, dlookup st'.linearizations f = some lin →
        ∀ s, s ∈ lin → dcontains st'.sequences s = true) ∧
      (∀ f rules lhs rhs, dlookup st'.functions f = some rules → (lhs, rhs) ∈ rules →
        ∀ r, r ∈ rhs → dcontains st'.nonterms r = true) ∧
      (∀ s b, dlookup st'.sequences s = some (some b) →
        P s ∨ ∃ l, l ∈ ls ∧ declaresSeqB l.data s = true) := by
  intro ls
  induction ls with
  | nil =>
    intro st0 st' P h h1 h2 h3
    obtain rfl := Except.ok.inj h
    exact ⟨h1, h2, fun s b hb => Or.inl (h3 s b hb)⟩
  | cons l rest ih =>
    intro st0 st' P h h1 h2 h3
    rw [List.foldlM_cons] at h
    cases hs : readStep st0 l with
    | error e =>
      rw [hs] at h
      exact ((error_ne_ok (show (Except.error e : Except PyErr RState) = .ok st' from h)).elim)
    | ok st1 =>
      rw [hs] at h
      have h' : rest.foldlM readStep st1 = .ok st' := h
      obtain ⟨g1, g2, g3⟩ := processLine_inv st0 st1 l.data (readStep_ok st0 st1 l hs) P h1 h2 h3
      obtain ⟨i1, i2, i3⟩ := ih st1 st'
        (fun s => P s ∨ declaresSeqB l.data s = true) h' g1 g2 g3
      refine ⟨i1, i2, ?_⟩
      intro s b hb
      rcases i3 s b hb with (hP | hd) | ⟨l', hl', hd'⟩
      · exact Or.inl hP
      · exact Or.inr ⟨l, List.mem_cons_self l rest, hd⟩
      · exact Or.inr ⟨l', List.mem_cons_of_mem l hl', hd'⟩

/-- C10: on every successful parse the returned model contains explicit
placeholders: every sequence identifier referenced in some recorded
linearization is a key of the `sequences` mapping, every RHS nonterminal of
every recorded rule is a key of the `nonterms` mapping, and a sequence key
for which no input line is a sequence-body declaration holds the `None`
placeholder.  (The model's six components are the fields of `Grammar`,
mirroring the six keys of the returned dict.) -/
theorem c10_placeholders (lines : List String) (g : Grammar) (ws : List String)
    (h : read_grammar lines true = .ok (g, ws)) :
    (∀ f lin, dlookup g.linearizations f = some lin →
      ∀ s, s ∈ lin → dcontains g.sequences s = true) ∧
    (∀ f rules lhs rhs, dlookup g.functions f = some rules → (lhs, rhs) ∈ rules →
      ∀ r, r ∈ rhs → dcontains g.nonterms r = true) ∧
    (∀ s, dcontains g.sequences s = true →
      (∀ l, l ∈ lines → declaresSeqB l.data s = false) →
      dlookup g.sequences s = some none) := by
  unfold read_grammar at h
  cases hfold : lines.foldlM readStep initState with
  | error e =>
    rw [hfold] at h
    exact ((error_ne_ok (show (Except.error e : Except PyErr (Grammar × List String))
      = .ok (g, ws) from h)).elim)
  | ok st =>
    rw [hfold] at h
    have h' : Prod.mk (mkGrammar st) <$> runValidate st = .ok (g, ws) := h
    cases hv : runValidate st with
    | error e =>
      rw [hv] at h'
      exact ((error_ne_ok (show (Except.error e : Except PyErr (Grammar × List String))
        = .ok (g, ws) from h')).elim)
    | ok ws2 =>
      rw [hv] at h'
      have h2 : (Except.ok (mkGrammar st, ws2) : Except PyErr (Grammar × List String))
          = .ok (g, ws) := h'
      injection h2 with h3
      injection h3 with hg hw
      subst hg
      obtain ⟨i1, i2, i3⟩ := foldLines_inv lines initState st (fun _ => False) hfold
        (by intro f lin hf; simp [initState, dlookup] at hf)
        (by intro f rules lhs rhs hf; simp [initState, dlookup] at hf)
        (by intro s b hb; simp [initState, dlookup] at hb)
      refine ⟨i1, i2, ?_⟩
      intro s hcont hnever
      have hsome : (dlookup st.sequences s).isSome = true := hcont
      cases hl : dlookup st.sequences s with
      | none =>
        rw [hl] at hsome
        cases hsome
      | some v =>
        cases v with
        | none => exact hl
        | some b =>
          rcases i3 s b hl with hF | ⟨l, hl2, hd⟩
          · exact hF.elim
          · rw [hnever l hl2] at hd
            cases hd

/-- C10 witness: for the single linearization line `f = l1` the referenced
but never-defined sequence `l1` is present with the `None` placeholder. -/
theorem c10_placeholders_witness :
    dlookup (⟨[], [], [("f", ["l1"])], [("l1", none)], [], []⟩ : Grammar).sequences ("l1") =
      some none :=
  (c10_placeholders [("f = l1")] ⟨[], [], [("f", ["l1"])], [("l1", none)], [], []⟩
    ["Undefined sequences: l1"] rfl).2.2 ("l1") rfl (by decide)
